import Mathlib

/-!
# talent_hero: the export scraper and its download resolver

A shallow embedding of `src/main.js` and `src/ahrefs_scraper/login.js`.

* The file system is a value `FileSystem`: what `fs.readdirSync` and `fs.statSync`
  answer, which directory entry every path denotes and which file every entry holds.
* The browser is a value `Browser σ` over an arbitrary page state `σ`: how the
  page reacts to each call, and what `document.querySelector(..).textContent`
  finds.
* A script is a function from a `World` to an outcome and a new `World`; a thrown
  error stops the script, and the world keeps the calls made so far.
-/

namespace TalentHero

/-! ## Strings and the file system -/

/-- The constant `downloadPath` of `main.js` (line 12). -/
def downloadPath : String := "/Users/mike/Downloads"

/-- Character-list form of `String.prototype.startsWith`. -/
def startsWithChars : List Char → List Char → Bool
  | _, [] => true
  | [], _ :: _ => false
  | c :: cs, p :: ps => c == p && startsWithChars cs ps

/-- The method `String.prototype.startsWith(searchString)`. -/
def startsWith (s searchString : String) : Bool :=
  startsWithChars s.data searchString.data

/-- What the file system answers to the calls the program makes.
* `readdirSync dir` is the result of `fs.readdirSync(dir)`; it may throw.
* `statSync p` is the modification time that `fs.statSync(p)` reads, in nanoseconds
  since the epoch, as the file system keeps it; it may throw.
* `entry p` is the directory entry that the path `p` denotes, under its canonical
  spelling: two paths have the same `entry` exactly when they lead to the same place
  (after normalisation, the working directory, case folding and symbolic links).
* `content e` is the identity of the file that the directory entry `e` holds, if any;
  two entries with the same content are hard links of one file.
* `refuses src dst` is the error with which `fs.rename(src, dst)` fails for a reason
  other than a missing source: the directory of the destination does not exist, a
  permission is missing, the destination is on another device, and so on. -/
structure FileSystem where
  readdirSync : String → Except String (List String)
  statSync : String → Except String Int
  entry : String → String
  content : String → Option Nat
  refuses : String → String → Option String

/-- The identity of the file that the path `p` names, if any. -/
def FileSystem.file (fs : FileSystem) (p : String) : Option Nat :=
  fs.content (fs.entry p)

/-- The method `getTime()` of the `Date` that Node.js makes of a modification time
(`stats.mtime`): the whole number of milliseconds nearest to it (`Math.round` of the
milliseconds), or `none`, the value `NaN`, when that number is outside the range of
`Date` (8.64e15 milliseconds either side of the epoch). Two modification times within
the same millisecond have the same `getTime()`. -/
def getTime (mtimeNs : Int) : Option Int :=
  let ms := Int.fdiv (mtimeNs + 500000) 1000000
  if -8640000000000000 ≤ ms ∧ ms ≤ 8640000000000000 then some ms else none

/-- The operator `-` of JavaScript on two time values: `NaN` (`none`) when either of
them is `NaN`. -/
def jsSub : Option Int → Option Int → Option Int
  | some x, some y => some (x - y)
  | _, _ => none

/-- Insertion of `x` in front of an already sorted list: `x` goes before the first
element `y` for which the comparator answers `compareFn(x, y) ≤ 0`. A comparator value
`NaN` (`none`) counts as `+0` (`SortCompare` of ECMAScript). The comparator may
throw. -/
def sortInsert {α : Type} (compareFn : α → α → Except String (Option Int)) (x : α) :
    List α → Except String (List α)
  | [] => pure [x]
  | y :: ys => do
    let v ← compareFn x y
    let c := v.getD 0
    if c ≤ 0 then pure (x :: y :: ys)
    else do
      let rest ← sortInsert compareFn x ys
      pure (y :: rest)

/-- The method `Array.prototype.sort(compareFn)`: a stable comparison sort (ECMAScript
2019), here the insertion sort. An element is put before the elements it compares
smaller than, and elements that compare equal keep the order they came in. An array of
fewer than two elements is returned without any call of the comparator; an error
thrown by the comparator leaves the sort. Where the comparator is not consistent (a
`NaN` that ties an element with two elements of different rank) ECMAScript leaves the
order to the engine, and the order here is that of the insertion. -/
def sort {α : Type} (compareFn : α → α → Except String (Option Int)) :
    List α → Except String (List α)
  | [] => pure []
  | x :: xs => do
    let sorted ← sort compareFn xs
    sortInsert compareFn x sorted

/-- The filter of `getLatestFile` (line 73): the name starts neither with a period nor
with an underscore. -/
def visible (file : String) : Bool :=
  !startsWith file "." && !startsWith file "_"

/-- The comparator of `getLatestFile` (lines 76-79): `mtime.getTime()` of `b` minus
that of `a`, `b` being read first. -/
def byMtimeDesc (fs : FileSystem) (a b : String) : Except String (Option Int) := do
  let tb ← fs.statSync (downloadPath ++ "/" ++ b)
  let ta ← fs.statSync (downloadPath ++ "/" ++ a)
  pure (jsSub (getTime tb) (getTime ta))

/-- The function `getLatestFile` of `main.js` (lines 68-83). The result `none` is the
JavaScript value `undefined` (`sortedFiles[0]` of an empty array). -/
def getLatestFile (fs : FileSystem) : Except String (Option String) := do
  let files ← fs.readdirSync downloadPath
  let filteredFiles := files.filter visible
  let sortedFiles ← sort (byMtimeDesc fs) filteredFiles
  pure sortedFiles.head?

/-- The file system whose download directory holds the entries `files`, each a name with
its modification time in nanoseconds, in the order in which `readdirSync` lists them,
and nothing else; the identity of a file is its position in the listing, every path
is its own canonical spelling, and no rename is refused. -/
def listingFsNs (files : List (String × Int)) : FileSystem where
  readdirSync := fun dir =>
    if dir = downloadPath then .ok (files.map Prod.fst) else .error "ENOENT"
  statSync := fun p =>
    match files.find? (fun e => downloadPath ++ "/" ++ e.1 == p) with
    | some e => .ok e.2
    | none => .error "ENOENT"
  entry := fun p => p
  content := fun p =>
    match files.findIdx? (fun e => downloadPath ++ "/" ++ e.1 == p) with
    | some i => some i
    | none => none
  refuses := fun _ _ => none

/-- The file system `listingFsNs` for modification times given in whole
milliseconds. -/
def listingFs (files : List (String × Int)) : FileSystem :=
  listingFsNs (files.map (fun e => (e.1, e.2 * 1000000)))

/-! ## Paths -/

/-- The segments of a path between its separators `/`. -/
def splitSlash : List Char → List (List Char)
  | [] => [[]]
  | c :: cs =>
    match splitSlash cs with
    | [] => [[c]]
    | seg :: rest => if c = '/' then [] :: seg :: rest else (c :: seg) :: rest

/-- One segment of `normalizeString` of Node.js: `res` holds the segments kept so far,
the last one first. An empty segment and `.` are dropped; `..` removes the last kept
segment unless there is none or it is `..` itself, in which case `..` is kept when the
path is relative (`allowAboveRoot`) and dropped otherwise; any other segment is kept. -/
def normalizeStep (allowAboveRoot : Bool) (res : List (List Char)) (seg : List Char) :
    List (List Char) :=
  if seg = [] ∨ seg = ['.'] then res
  else if seg = ['.', '.'] then
    match res with
    | [] => if allowAboveRoot then [['.', '.']] else []
    | top :: rest =>
      if top = ['.', '.'] then (if allowAboveRoot then ['.', '.'] :: top :: rest else top :: rest)
      else rest
  else seg :: res

/-- The segments joined by `/`. -/
def joinSlash : List (List Char) → List Char
  | [] => []
  | [seg] => seg
  | seg :: rest => seg ++ '/' :: joinSlash rest

/-- The helper `normalizeString(path, allowAboveRoot)` of the `path` module of Node.js. -/
def normalizeString (allowAboveRoot : Bool) (path : List Char) : List Char :=
  joinSlash (((splitSlash path).foldl (normalizeStep allowAboveRoot) []).reverse)

/-- The function `path.posix.normalize` of Node.js, on the characters of the path. -/
def normalizeChars (path : List Char) : List Char :=
  if path = [] then ['.']
  else
    let isAbsolute := path.head? = some '/'
    let trailingSeparator := path.getLast? = some '/'
    let res := normalizeString (!decide isAbsolute) path
    if res = [] then
      if isAbsolute then ['/'] else if trailingSeparator then ['.', '/'] else ['.']
    else
      let res := if trailingSeparator then res ++ ['/'] else res
      if isAbsolute then '/' :: res else res

/-- The function `path.join(...paths)` of Node.js on a POSIX system (`downloadPath` is a
POSIX path): the non-empty arguments are joined by `/` and the result is normalized;
without a non-empty argument the result is `.`. -/
def path.join (paths : List String) : String :=
  match (paths.filter (fun a => a.data ≠ [])).map String.data with
  | [] => "."
  | args => String.mk (normalizeChars (joinSlash args))

/-- The conversion of a value to a string by the operator `+` of JavaScript: the value
`undefined` becomes the text `undefined`. -/
def jsString : Option String → String
  | some s => s
  | none => "undefined"

/-! ## The browser, the world and scripts -/

/-- The calls that the program makes on the browser, the page and the file system. -/
inductive Action where
  | launch
  | newPage
  | goto (url : String)
  | waitForTimeout (ms : Nat)
  | type (selector text : String)
  | press (key : String)
  | evaluate (selector : String)
  | wheel (deltaY : Int)
  | click (selector : String)
  | waitForSelector (selector : String) (timeout : Nat)
  | close
  | readdirSync (dir : String)
  | rename (src dst : String)
  deriving DecidableEq, Repr

/-- The browser and the remote site over a page state `σ`. `step s a` is the state
after the call `a` in the state `s`, or the error with which the call rejects; `tick s
ms` is the state after `ms` milliseconds have passed (a timer does not reject);
`textContent s selector` is the text content of the first element that matches the
selector, if there is one; `url s` is the address of the page. -/
structure Browser (σ : Type) where
  step : σ → Action → Except String σ
  tick : σ → Nat → σ
  textContent : σ → String → Option String
  url : σ → String

/-- The state of a run: the page, the file system, the calls made so far and the lines
written to the console. -/
structure World (σ : Type) where
  page : σ
  fs : FileSystem
  trace : List Action
  console : List String

/-- A script: from a world to an outcome (a value, or a thrown error) and the world
it leaves. -/
def Script (σ α : Type) : Type := World σ → Except String α × World σ

/-- Sequencing of scripts: an error thrown by the first part skips the rest. -/
def Script.bind {σ α β : Type} (m : Script σ α) (f : α → Script σ β) : Script σ β :=
  fun w =>
    match m w with
    | (.ok a, w1) => f a w1
    | (.error e, w1) => (.error e, w1)

instance {σ : Type} : Monad (Script σ) where
  pure a := fun w => (.ok a, w)
  bind := Script.bind

/-- The call `console.log(msg)`. -/
def log {σ : Type} (msg : String) : Script σ Unit :=
  fun w => (.ok (), { w with console := w.console ++ [msg] })

/-- An awaited call on the browser or the page: it is recorded, and it throws when the
browser rejects it. -/
def call {σ : Type} (b : Browser σ) (a : Action) : Script σ Unit :=
  fun w =>
    match b.step w.page a with
    | .ok s => (.ok (), { w with page := s, trace := w.trace ++ [a] })
    | .error e => (.error e, { w with trace := w.trace ++ [a] })

/-- The call `await page.waitForTimeout(ms)`. -/
def waitForTimeout {σ : Type} (b : Browser σ) (ms : Nat) : Script σ Unit :=
  fun w => (.ok (), { w with page := b.tick w.page ms, trace := w.trace ++ [.waitForTimeout ms] })

/-- The call `await page.evaluate(() => document.querySelector(selector).textContent)`:
without a matching element `querySelector` gives `null` and the property access throws
a `TypeError`. -/
def evaluateTextContent {σ : Type} (b : Browser σ) (selector : String) : Script σ String :=
  fun w =>
    match b.textContent w.page selector with
    | some text => (.ok text, { w with trace := w.trace ++ [.evaluate selector] })
    | none => (.error "TypeError", { w with trace := w.trace ++ [.evaluate selector] })

/-- The getter `page.url()`. -/
def pageUrl {σ : Type} (b : Browser σ) : Script σ String :=
  fun w => (.ok (b.url w.page), w)

/-- A synchronous read of the file system, recorded under the call `a` that starts it. -/
def readFs {σ α : Type} (a : Action) (read : FileSystem → Except String α) : Script σ α :=
  fun w => (read w.fs, { w with trace := w.trace ++ [a] })

/-- The call `fs.rename(src, dst, (err) => { if (err) throw err; ... })` up to the
entry of its callback, with the effect of `rename(2)`. The rename fails when `src`
names no file or when the file system refuses it, and the callback then throws. When
`dst` already names the file of `src` (the same entry, or a hard link of the file) the
rename succeeds and changes nothing. Otherwise the entry of `dst` holds the file that
`src` named, and the entry of `src` holds nothing. The entries that paths denote stay
as they are, and so do the answers of `readdirSync` and `statSync`, which the program
never asks for after a rename. -/
def rename {σ : Type} (src dst : String) : Script σ Unit :=
  fun w =>
    match w.fs.file src with
    | none => (.error "ENOENT", { w with trace := w.trace ++ [.rename src dst] })
    | some i =>
      match w.fs.refuses src dst with
      | some e => (.error e, { w with trace := w.trace ++ [.rename src dst] })
      | none =>
        if w.fs.file dst = some i then
          (.ok (), { w with trace := w.trace ++ [.rename src dst] })
        else
          (.ok (), { w with
            fs := { w.fs with
              content := fun q =>
                if q = w.fs.entry dst then some i
                else if q = w.fs.entry src then none
                else w.fs.content q }
            trace := w.trace ++ [.rename src dst] })

/-! ## The program -/

/-- The function `login` of `login.js` (lines 1-22). -/
def login {σ : Type} (b : Browser σ) (email password : String) : Script σ Unit := do
  call b (.goto "https://app.ahrefs.com/user/login")
  let url ← pageUrl b
  log url
  waitForTimeout b 2000
  call b (.type "input[name='email']" email)
  log "Inputted email"
  waitForTimeout b 2000
  log "waited 2 seconds"
  call b (.type "input[name='password']" password)
  log "Inputted password"
  waitForTimeout b 2000
  call b (.press "Enter")
  log "Pressed enter button to log in"
  waitForTimeout b 5000

/-- The function `goToRankTracker` of `main.js` (lines 22-25). -/
def goToRankTracker {σ : Type} (b : Browser σ) : Script σ Unit := do
  call b (.goto "https://app.ahrefs.com/rank-tracker")
  log "Went to rank tracker page"

/-- The function `goToOverviewPage` of `main.js` (lines 27-42). -/
def goToOverviewPage {σ : Type} (b : Browser σ) (rank_tracker_url : String) :
    Script σ String := do
  waitForTimeout b 5000
  call b (.goto rank_tracker_url)
  log "Opened overview page"
  waitForTimeout b 2000
  let project_name ← evaluateTextContent b ".ProjectDropdown-targetToggle"
  log ("Project name: " ++ project_name)
  waitForTimeout b 2000
  pure project_name

/-- The function `scrollPage` of `main.js` (lines 44-47). -/
def scrollPage {σ : Type} (b : Browser σ) : Script σ Unit := do
  call b (.wheel 200)
  waitForTimeout b 2000

/-- The function `clickExportButton` of `main.js` (lines 49-53). -/
def clickExportButton {σ : Type} (b : Browser σ) : Script σ Unit := do
  call b (.click ".Export")
  log "Clicked on first export button"
  waitForTimeout b 4000

/-- The function `clickSecondExportButton` of `main.js` (lines 55-59). -/
def clickSecondExportButton {σ : Type} (b : Browser σ) : Script σ Unit := do
  call b (.click ".btn.btn--primary")
  log "Clicked on second export button"
  waitForTimeout b 4000

/-- The function `checkDownloadStatus` of `main.js` (lines 61-66). -/
def checkDownloadStatus {σ : Type} (b : Browser σ) : Script σ Unit := do
  call b (.waitForSelector ".Export__status.Export__status--success" 0)
  log "Download successfully finished"

/-- The function `renameAndMoveLatestFile` of `main.js` (lines 86-102). Line 87 computes
`path.basename(latestFilePath)` into a constant that is never read. -/
def renameAndMoveLatestFile {σ : Type} (project_name latestFilePath newDir : String) :
    Script σ Unit := do
  let newName := project_name ++ ".csv"
  let newPath := path.join [newDir, newName]
  rename latestFilePath newPath
  log "File renamed successfully"
  rename newPath (path.join [newDir, "..", newName])
  log "File moved successfully"

/-- The main flow of `main.js` (lines 105-129), with the three command-line arguments
of lines 18-20. -/
def mainFlow {σ : Type} (b : Browser σ) (email password rank_tracker_url : String) :
    Script σ Unit := do
  call b .launch
  call b .newPage
  login b email password
  goToRankTracker b
  let project_name ← goToOverviewPage b rank_tracker_url
  scrollPage b
  clickExportButton b
  clickSecondExportButton b
  waitForTimeout b 2000
  call b .close
  log "Browser closed"
  let latestFile ← readFs (.readdirSync downloadPath) getLatestFile
  rename (downloadPath ++ "/" ++ jsString latestFile) (project_name ++ ".csv")
  log "File renamed successfully"
  log (downloadPath ++ "/" ++ jsString latestFile)

/-! ## Parts of the main flow, expected calls and example worlds -/

/-- Lines 106-110 of the main flow: what runs before `goToOverviewPage`. -/
def beforeOverview {σ : Type} (b : Browser σ) (email password : String) : Script σ Unit := do
  call b .launch
  call b .newPage
  login b email password
  goToRankTracker b

/-- Lines 112-118 of the main flow: what runs between `goToOverviewPage` and the
reading of the download directory. -/
def afterOverview {σ : Type} (b : Browser σ) : Script σ Unit := do
  scrollPage b
  clickExportButton b
  clickSecondExportButton b
  waitForTimeout b 2000
  call b .close
  log "Browser closed"

/-- Lines 120-127 of the main flow: the newest file is resolved and renamed. -/
def resolveAndRename {σ : Type} (project_name : String) : Script σ Unit := do
  let latestFile ← readFs (.readdirSync downloadPath) getLatestFile
  rename (downloadPath ++ "/" ++ jsString latestFile) (project_name ++ ".csv")
  log "File renamed successfully"
  log (downloadPath ++ "/" ++ jsString latestFile)

/-- The calls of `login`, in order. -/
def loginActions (email password : String) : List Action :=
  [.goto "https://app.ahrefs.com/user/login", .waitForTimeout 2000,
   .type "input[name='email']" email, .waitForTimeout 2000,
   .type "input[name='password']" password, .waitForTimeout 2000,
   .press "Enter", .waitForTimeout 5000]

/-- The calls of the main flow before `goToOverviewPage`, in order. -/
def beforeOverviewActions (email password : String) : List Action :=
  [.launch, .newPage] ++ loginActions email password ++
    [.goto "https://app.ahrefs.com/rank-tracker"]

/-- The calls of `goToOverviewPage`, in order. -/
def overviewActions (rank_tracker_url : String) : List Action :=
  [.waitForTimeout 5000, .goto rank_tracker_url, .waitForTimeout 2000,
   .evaluate ".ProjectDropdown-targetToggle", .waitForTimeout 2000]

/-- The calls of the main flow between `goToOverviewPage` and the reading of the
download directory, in order. -/
def afterOverviewActions : List Action :=
  [.wheel 200, .waitForTimeout 2000, .click ".Export", .waitForTimeout 4000,
   .click ".btn.btn--primary", .waitForTimeout 4000, .waitForTimeout 2000, .close]

/-- The calls that come after `goToOverviewPage` in the main flow: the scroll, the
clicks, the closing of the browser and the calls on the file system. -/
def isLaterAction : Action → Bool
  | .wheel _ => true
  | .click _ => true
  | .close => true
  | .readdirSync _ => true
  | .rename _ _ => true
  | _ => false

/-- The script `m` leaves the file system as it is and makes the calls `acts` in
order, all of them when it returns and an initial part of them when it throws. -/
def Footprint {σ α : Type} (m : Script σ α) (acts : List Action) : Prop :=
  ∀ w, (m w).2.fs = w.fs ∧ ∃ t rest, acts = t ++ rest ∧ (m w).2.trace = w.trace ++ t ∧
    ∀ a, (m w).1 = .ok a → rest = []

/-- The calls `fs.rename`. -/
def isRename : Action → Bool
  | .rename _ _ => true
  | _ => false

/-- The two calls `fs.rename` of `renameAndMoveLatestFile`, in order. -/
def twoStepRenameActions (project_name latestFilePath newDir : String) : List Action :=
  [.rename latestFilePath (path.join [newDir, project_name ++ ".csv"]),
   .rename (path.join [newDir, project_name ++ ".csv"])
     (path.join [newDir, "..", project_name ++ ".csv"])]

/-- A browser on which every call succeeds and whose page shows the project name
`My Project` in the toggle of the project dropdown. -/
def exampleBrowser : Browser Unit where
  step := fun _ _ => .ok ()
  tick := fun _ _ => ()
  textContent := fun _ selector =>
    if selector = ".ProjectDropdown-targetToggle" then some "My Project" else none
  url := fun _ => "https://app.ahrefs.com/user/login"

/-- A browser on which every call succeeds and whose page has no element at all. -/
def emptyPageBrowser : Browser Unit where
  step := fun _ _ => .ok ()
  tick := fun _ _ => ()
  textContent := fun _ _ => none
  url := fun _ => "about:blank"

/-- The world at the start of a run over the file system `fs`. -/
def startWorld (fs : FileSystem) : World Unit where
  page := ()
  fs := fs
  trace := []
  console := []

/-- A download directory that holds only the hidden entry `.DS_Store`; every path is
its own canonical spelling. -/
def hiddenOnlyFs : FileSystem where
  readdirSync := fun dir => if dir = downloadPath then .ok [".DS_Store"] else .error "ENOENT"
  statSync := fun p => if p = "/Users/mike/Downloads/.DS_Store" then .ok 1 else .error "ENOENT"
  entry := fun p => p
  content := fun p => if p = "/Users/mike/Downloads/.DS_Store" then some 1 else none
  refuses := fun _ _ => none

/-- A download directory that holds a hidden and an underscore entry, and in which
every `statSync` throws. -/
def unreadableFs : FileSystem where
  readdirSync := fun _ => .ok [".DS_Store", "_temp.csv"]
  statSync := fun _ => .error "ENOENT"
  entry := fun p => p
  content := fun _ => none
  refuses := fun _ _ => none

/-- The canonical spelling of a path in the example file systems: its normal form
(`path.normalize`). -/
def canonical (p : String) : String :=
  String.mk (normalizeChars p.data)

/-- A file system whose only file, with identity 7, is at the path `p`; two paths
denote the same entry when they have the same normal form; every directory exists and
no rename is refused. -/
def singleFileFs (p : String) : FileSystem where
  readdirSync := fun _ => .error "ENOENT"
  statSync := fun q => if canonical q = canonical p then .ok 0 else .error "ENOENT"
  entry := canonical
  content := fun e => if e = canonical p then some 7 else none
  refuses := fun _ _ => none

/-- A file system whose only file, with identity 7, has the two names `p` and `q`
(hard links); otherwise as `singleFileFs`. -/
def linkedFileFs (p q : String) : FileSystem where
  readdirSync := fun _ => .error "ENOENT"
  statSync := fun r =>
    if canonical r = canonical p ∨ canonical r = canonical q then .ok 0 else .error "ENOENT"
  entry := canonical
  content := fun e => if e = canonical p ∨ e = canonical q then some 7 else none
  refuses := fun _ _ => none

/-- A file system as `singleFileFs p` in which the directory `/Users/mike/Archive` does
not exist: a rename to a path below it is refused. -/
def missingDirFs (p : String) : FileSystem where
  readdirSync := fun _ => .error "ENOENT"
  statSync := fun q => if canonical q = canonical p then .ok 0 else .error "ENOENT"
  entry := canonical
  content := fun e => if e = canonical p then some 7 else none
  refuses := fun _ dst =>
    if startsWith (canonical dst) "/Users/mike/Archive/" then some "ENOENT" else none

/-- The head of the sorted list, computed without sorting: the first element of the
list that no other element beats under the comparison values `c`. -/
def firstBy {α : Type} (c : α → α → Int) : List α → Option α
  | [] => none
  | x :: xs =>
    match firstBy c xs with
    | none => some x
    | some y => if c x y ≤ 0 then some x else some y

/-! ## Lemmas: the sort and its head

The lemmas on the result of `getLatestFile` are stated for the values of `getTime()`,
which the comparator subtracts: `time f` is the value for the entry `f`, a whole number
of milliseconds. -/

theorem string_append_cancel (a b c : String) (h : a ++ b = a ++ c) : b = c := by
  have hd : (a ++ b).data = (a ++ c).data := by rw [h]
  simp only [String.data_append] at hd
  exact String.ext (List.append_cancel_left hd)

theorem sortInsert_spec {α : Type} (compareFn : α → α → Except String (Option Int))
    (c : α → α → Int) (x : α) (l : List α)
    (h : ∀ y ∈ l, compareFn x y = .ok (some (c x y))) :
    ∃ s, sortInsert compareFn x l = .ok s ∧ (∀ a, a ∈ s ↔ a = x ∨ a ∈ l) ∧
      s.head? = some (match l.head? with
        | none => x
        | some y => if c x y ≤ 0 then x else y) := by
  induction l with
  | nil => exact ⟨[x], rfl, by simp, rfl⟩
  | cons y ys ih =>
    have hy : compareFn x y = .ok (some (c x y)) := h y (List.mem_cons_self _ _)
    by_cases hc : c x y ≤ 0
    · refine ⟨x :: y :: ys, ?_, by simp, by simp [hc]⟩
      simp [sortInsert, hy, hc, bind, Except.bind, pure, Except.pure]
    · obtain ⟨s, hs, hmem, _⟩ := ih (fun z hz => h z (List.mem_cons_of_mem _ hz))
      refine ⟨y :: s, ?_, ?_, by simp [hc]⟩
      · simp [sortInsert, hy, hc, hs, bind, Except.bind, pure, Except.pure]
      · intro a
        simp only [List.mem_cons, hmem]
        tauto

theorem sort_spec {α : Type} (compareFn : α → α → Except String (Option Int))
    (c : α → α → Int) (l : List α)
    (h : ∀ a ∈ l, ∀ b ∈ l, compareFn a b = .ok (some (c a b))) :
    ∃ s, sort compareFn l = .ok s ∧ (∀ a, a ∈ s ↔ a ∈ l) ∧ s.head? = firstBy c l := by
  induction l with
  | nil => exact ⟨[], rfl, by simp, rfl⟩
  | cons x xs ih =>
    obtain ⟨s, hs, hmem, hhead⟩ := ih (fun a ha b hb =>
      h a (List.mem_cons_of_mem _ ha) b (List.mem_cons_of_mem _ hb))
    obtain ⟨s2, hs2, hmem2, hhead2⟩ := sortInsert_spec compareFn c x s (fun y hy =>
      h x (List.mem_cons_self _ _) y (List.mem_cons_of_mem _ ((hmem y).1 hy)))
    refine ⟨s2, ?_, ?_, ?_⟩
    · simp [sort, hs, hs2, bind, Except.bind]
    · intro a
      simp only [hmem2, hmem, List.mem_cons]
    · rw [hhead2, hhead]
      simp only [firstBy]
      cases firstBy c xs with
      | none => rfl
      | some y => by_cases hc : c x y ≤ 0 <;> simp [hc]

theorem sortInsert_mem {α : Type} (compareFn : α → α → Except String (Option Int)) (x : α)
    (l s : List α) (h : sortInsert compareFn x l = .ok s) : ∀ a, a ∈ s ↔ a = x ∨ a ∈ l := by
  induction l generalizing s with
  | nil =>
    simp only [sortInsert, pure, Except.pure, Except.ok.injEq] at h
    subst h
    simp
  | cons y ys ih =>
    simp only [sortInsert, bind, Except.bind] at h
    cases hc : compareFn x y with
    | error e => simp [hc] at h
    | ok v =>
      simp only [hc] at h
      by_cases hle : v.getD 0 ≤ 0
      · simp only [hle, if_true, pure, Except.pure, Except.ok.injEq] at h
        subst h
        simp
      · simp only [hle, if_false] at h
        cases hr : sortInsert compareFn x ys with
        | error e => simp [hr] at h
        | ok r =>
          simp only [hr, pure, Except.pure, Except.ok.injEq] at h
          subst h
          intro a
          simp only [List.mem_cons, ih r hr]
          tauto

theorem sort_mem {α : Type} (compareFn : α → α → Except String (Option Int)) (l s : List α)
    (h : sort compareFn l = .ok s) : ∀ a, a ∈ s ↔ a ∈ l := by
  induction l generalizing s with
  | nil =>
    simp only [sort, pure, Except.pure, Except.ok.injEq] at h
    subst h
    simp
  | cons x xs ih =>
    simp only [sort, bind, Except.bind] at h
    cases hr : sort compareFn xs with
    | error e => simp [hr] at h
    | ok r =>
      simp only [hr] at h
      intro a
      simp only [sortInsert_mem compareFn x r s h, ih r hr, List.mem_cons]

theorem firstBy_eq_none {α : Type} (c : α → α → Int) (l : List α) :
    firstBy c l = none ↔ l = [] := by
  cases l with
  | nil => simp [firstBy]
  | cons x xs =>
    simp only [firstBy]
    cases firstBy c xs with
    | none => simp
    | some y => by_cases hc : c x y ≤ 0 <;> simp [hc]

theorem firstBy_split (time : String → Int) (l : List String) (n : String)
    (h : firstBy (fun a b => time b - time a) l = some n) :
    ∃ pre post, l = pre ++ n :: post ∧ (∀ m ∈ pre, time m < time n) ∧
      (∀ m ∈ post, time m ≤ time n) := by
  induction l generalizing n with
  | nil => simp [firstBy] at h
  | cons x xs ih =>
    simp only [firstBy] at h
    cases hf : firstBy (fun a b => time b - time a) xs with
    | none =>
      simp only [hf, Option.some.injEq] at h
      subst h
      have hnil : xs = [] := (firstBy_eq_none _ xs).1 hf
      exact ⟨[], [], by simp [hnil], by simp, by simp⟩
    | some y =>
      simp only [hf] at h
      obtain ⟨pre, post, hxs, hpre, hpost⟩ := ih y hf
      by_cases hc : time y - time x ≤ 0
      · simp only [hc, if_true, Option.some.injEq] at h
        subst h
        refine ⟨[], xs, by simp, by simp, ?_⟩
        intro m hm
        rw [hxs] at hm
        rcases List.mem_append.1 hm with hm | hm
        · have := hpre m hm
          omega
        · rcases List.mem_cons.1 hm with rfl | hm
          · omega
          · have := hpost m hm
            omega
      · simp only [hc, if_false, Option.some.injEq] at h
        subst h
        refine ⟨x :: pre, post, by simp [hxs], ?_, hpost⟩
        intro m hm
        rcases List.mem_cons.1 hm with rfl | hm
        · omega
        · exact hpre m hm

theorem byMtimeDesc_eq (fs : FileSystem) (time : String → Int) (a b : String)
    (ha : ∃ ns, fs.statSync (downloadPath ++ "/" ++ a) = .ok ns ∧ getTime ns = some (time a))
    (hb : ∃ ns, fs.statSync (downloadPath ++ "/" ++ b) = .ok ns ∧ getTime ns = some (time b)) :
    byMtimeDesc fs a b = .ok (some (time b - time a)) := by
  obtain ⟨na, hna, hta⟩ := ha
  obtain ⟨nb, hnb, htb⟩ := hb
  simp [byMtimeDesc, hna, hnb, hta, htb, jsSub, bind, Except.bind, pure, Except.pure]

theorem getLatestFile_eq_firstBy (fs : FileSystem) (files : List String) (time : String → Int)
    (hls : fs.readdirSync downloadPath = .ok files)
    (hst : ∀ f ∈ files, ∃ ns,
      fs.statSync (downloadPath ++ "/" ++ f) = .ok ns ∧ getTime ns = some (time f)) :
    getLatestFile fs = .ok (firstBy (fun a b => time b - time a) (files.filter visible)) := by
  obtain ⟨s, hs, _, hhead⟩ := sort_spec (byMtimeDesc fs) (fun a b => time b - time a)
    (files.filter visible) (fun a ha b hb =>
      byMtimeDesc_eq fs time a b (hst a (List.mem_filter.1 ha).1) (hst b (List.mem_filter.1 hb).1))
  simp [getLatestFile, hls, hs, hhead, bind, Except.bind, pure, Except.pure]

theorem getLatestFile_filter_mem (fs : FileSystem) (files : List String) (n : String)
    (hls : fs.readdirSync downloadPath = .ok files)
    (h : getLatestFile fs = .ok (some n)) : n ∈ files.filter visible := by
  simp only [getLatestFile, hls, bind, Except.bind] at h
  cases hs : sort (byMtimeDesc fs) (files.filter visible) with
  | error e => simp [hs] at h
  | ok s =>
    simp only [hs, pure, Except.pure, Except.ok.injEq] at h
    exact (sort_mem _ _ s hs n).1 (List.mem_of_mem_head? h)

theorem getLatestFile_split (fs : FileSystem) (files : List String) (time : String → Int)
    (n : String) (hls : fs.readdirSync downloadPath = .ok files)
    (hst : ∀ f ∈ files, ∃ ns,
      fs.statSync (downloadPath ++ "/" ++ f) = .ok ns ∧ getTime ns = some (time f))
    (h : getLatestFile fs = .ok (some n)) :
    ∃ pre post, files = pre ++ n :: post ∧
      (∀ m ∈ pre, visible m = true → time m < time n) ∧
      (∀ m ∈ post, visible m = true → time m ≤ time n) := by
  rw [getLatestFile_eq_firstBy fs files time hls hst] at h
  simp only [Except.ok.injEq] at h
  obtain ⟨P, Q, hPQ, hP, hQ⟩ := firstBy_split time _ n h
  obtain ⟨l1, l2, hfiles, hl1, hl2⟩ := List.filter_eq_append_iff.1 hPQ
  obtain ⟨l2a, l2b, hl2eq, hhid, _, hl2b⟩ := List.filter_eq_cons_iff.1 hl2
  refine ⟨l1 ++ l2a, l2b, by simp [hfiles, hl2eq], ?_, ?_⟩
  · intro m hm hv
    rcases List.mem_append.1 hm with hm | hm
    · exact hP m (hl1 ▸ List.mem_filter.2 ⟨hm, hv⟩)
    · exact absurd hv (hhid m hm)
  · intro m hm hv
    exact hQ m (hl2b ▸ List.mem_filter.2 ⟨hm, hv⟩)

theorem visible_iff (f : String) :
    visible f = true ↔ startsWith f "." = false ∧ startsWith f "_" = false := by
  simp [visible]

theorem getLatestFile_max (fs : FileSystem) (files : List String) (time : String → Int)
    (n : String) (hls : fs.readdirSync downloadPath = .ok files)
    (hst : ∀ f ∈ files, ∃ ns,
      fs.statSync (downloadPath ++ "/" ++ f) = .ok ns ∧ getTime ns = some (time f))
    (h : getLatestFile fs = .ok (some n)) :
    n ∈ files ∧ visible n = true ∧ ∀ m ∈ files, visible m = true → time m ≤ time n := by
  have hn := List.mem_filter.1 (getLatestFile_filter_mem fs files n hls h)
  obtain ⟨pre, post, hfiles, hpre, hpost⟩ := getLatestFile_split fs files time n hls hst h
  refine ⟨hn.1, hn.2, ?_⟩
  intro m hm hv
  rw [hfiles] at hm
  rcases List.mem_append.1 hm with hm | hm
  · exact le_of_lt (hpre m hm hv)
  · rcases List.mem_cons.1 hm with rfl | hm
    · exact le_refl _
    · exact hpost m hm hv

theorem getLatestFile_some_of_visible (fs : FileSystem) (files : List String)
    (time : String → Int) (hls : fs.readdirSync downloadPath = .ok files)
    (hst : ∀ f ∈ files, ∃ ns,
      fs.statSync (downloadPath ++ "/" ++ f) = .ok ns ∧ getTime ns = some (time f))
    (hvis : ∃ f ∈ files, visible f = true) : ∃ n, getLatestFile fs = .ok (some n) := by
  rw [getLatestFile_eq_firstBy fs files time hls hst]
  cases hf : firstBy (fun a b => time b - time a) (files.filter visible) with
  | some n => exact ⟨n, rfl⟩
  | none =>
    obtain ⟨f, hf1, hf2⟩ := hvis
    have hnil := (firstBy_eq_none _ _).1 hf
    have : f ∈ files.filter visible := List.mem_filter.2 ⟨hf1, hf2⟩
    rw [hnil] at this
    simp at this

theorem getLatestFile_none_iff (fs : FileSystem) (files : List String)
    (hls : fs.readdirSync downloadPath = .ok files) :
    getLatestFile fs = .ok none ↔ files.filter visible = [] := by
  constructor
  · intro h
    simp only [getLatestFile, hls, bind, Except.bind] at h
    cases hs : sort (byMtimeDesc fs) (files.filter visible) with
    | error e => simp [hs] at h
    | ok s =>
      simp only [hs, pure, Except.pure, Except.ok.injEq, List.head?_eq_none_iff] at h
      subst h
      have hmem := sort_mem _ _ _ hs
      apply List.eq_nil_iff_forall_not_mem.2
      intro a ha
      simpa using (hmem a).2 ha
  · intro h
    simp [getLatestFile, hls, h, sort, bind, Except.bind, pure, Except.pure]

/-- What the code does by its comparator: when every listed entry has a value of
`getTime()` and these values are pairwise distinct, the result is the non-excluded
entry of greatest `getTime()`. -/
theorem getLatestFile_greatest_time (fs : FileSystem) (files : List String)
    (time : String → Int) (hls : fs.readdirSync downloadPath = .ok files)
    (hst : ∀ f ∈ files, ∃ ns,
      fs.statSync (downloadPath ++ "/" ++ f) = .ok ns ∧ getTime ns = some (time f))
    (hdist : files.Pairwise (fun a b => time a ≠ time b))
    (hvis : ∃ f ∈ files, visible f = true) :
    ∃ n, getLatestFile fs = .ok (some n) ∧ n ∈ files ∧ visible n = true ∧
      ∀ m ∈ files, visible m = true → m ≠ n → time m < time n := by
  obtain ⟨n, hn⟩ := getLatestFile_some_of_visible fs files time hls hst hvis
  obtain ⟨hmem, hv, hmax⟩ := getLatestFile_max fs files time n hls hst hn
  refine ⟨n, hn, hmem, hv, ?_⟩
  intro m hm hvm hne
  exact lt_of_le_of_ne (hmax m hm hvm)
    (hdist.forall (fun _ _ h => fun h2 => h h2.symm) hm hmem hne)

/-- What the code does by its comparator: with pairwise distinct values of `getTime()`
the result is the same for every order of the listing. -/
theorem getLatestFile_perm (fs fs2 : FileSystem) (files files2 : List String)
    (time : String → Int) (hls : fs.readdirSync downloadPath = .ok files)
    (hls2 : fs2.readdirSync downloadPath = .ok files2)
    (hst : ∀ f ∈ files, ∃ ns,
      fs.statSync (downloadPath ++ "/" ++ f) = .ok ns ∧ getTime ns = some (time f))
    (hst2 : ∀ f ∈ files2, ∃ ns,
      fs2.statSync (downloadPath ++ "/" ++ f) = .ok ns ∧ getTime ns = some (time f))
    (hperm : files.Perm files2) (hdist : files.Pairwise (fun a b => time a ≠ time b)) :
    getLatestFile fs = getLatestFile fs2 := by
  have hsym : Symmetric (fun a b : String => time a ≠ time b) := fun _ _ h h2 => h h2.symm
  have key : ∀ (g g2 : FileSystem) (l l2 : List String),
      g.readdirSync downloadPath = .ok l → g2.readdirSync downloadPath = .ok l2 →
      (∀ f ∈ l, ∃ ns, g.statSync (downloadPath ++ "/" ++ f) = .ok ns ∧
        getTime ns = some (time f)) →
      (∀ f ∈ l2, ∃ ns, g2.statSync (downloadPath ++ "/" ++ f) = .ok ns ∧
        getTime ns = some (time f)) →
      l.Perm l2 → l.Pairwise (fun a b => time a ≠ time b) →
      ∀ n, getLatestFile g = .ok (some n) → getLatestFile g2 = .ok (some n) := by
    intro g g2 l l2 hl hl2 hs hs2 hp hd n hn
    obtain ⟨hmem, hv, hmax⟩ := getLatestFile_max g l time n hl hs hn
    obtain ⟨n2, hn2⟩ := getLatestFile_some_of_visible g2 l2 time hl2 hs2
      ⟨n, hp.mem_iff.1 hmem, hv⟩
    obtain ⟨hmem2, hv2, hmax2⟩ := getLatestFile_max g2 l2 time n2 hl2 hs2 hn2
    have h1 := hmax n2 (hp.mem_iff.2 hmem2) hv2
    have h2 := hmax2 n (hp.mem_iff.1 hmem) hv
    by_cases hne : n2 = n
    · rw [hn2, hne]
    · exact absurd (le_antisymm h1 h2) (hd.forall hsym (hp.mem_iff.2 hmem2) hmem hne)
  have hres := getLatestFile_eq_firstBy fs files time hls hst
  have hres2 := getLatestFile_eq_firstBy fs2 files2 time hls2 hst2
  cases hf : firstBy (fun a b => time b - time a) (files.filter visible) with
  | some n =>
    rw [hf] at hres
    rw [hres, key fs fs2 files files2 hls hls2 hst hst2 hperm hdist n hres]
  | none =>
    cases hf2 : firstBy (fun a b => time b - time a) (files2.filter visible) with
    | none => rw [hres, hres2, hf, hf2]
    | some n2 =>
      rw [hf2] at hres2
      have hback := key fs2 fs files2 files hls2 hls hst2 hst hperm.symm
        (hperm.pairwise hdist (fun h h2 => h h2.symm)) n2 hres2
      rw [hres, hf] at hback
      simp at hback

/-! ## Lemmas: the last segment of a joined path -/

theorem splitSlash_ne_nil (l : List Char) : splitSlash l ≠ [] := by
  cases l with
  | nil => simp [splitSlash]
  | cons c cs =>
    simp only [splitSlash]
    cases splitSlash cs with
    | nil => simp
    | cons seg rest => by_cases hc : c = '/' <;> simp [hc]

theorem splitSlash_no_slash (l : List Char) (h : '/' ∉ l) : splitSlash l = [l] := by
  induction l with
  | nil => rfl
  | cons c cs ih =>
    have hc : c ≠ '/' := fun hc => h (hc ▸ List.mem_cons_self _ _)
    have hcs : '/' ∉ cs := fun hm => h (List.mem_cons_of_mem _ hm)
    simp [splitSlash, ih hcs, hc]

theorem splitSlash_append (x y : List Char) :
    splitSlash (x ++ '/' :: y) = splitSlash x ++ splitSlash y := by
  induction x with
  | nil =>
    simp only [List.nil_append, splitSlash]
    cases hy : splitSlash y with
    | nil => exact absurd hy (splitSlash_ne_nil y)
    | cons seg rest => simp
  | cons c cs ih =>
    have e1 : splitSlash (c :: cs ++ '/' :: y) =
        match splitSlash (cs ++ '/' :: y) with
        | [] => [[c]]
        | seg :: rest => if c = '/' then [] :: seg :: rest else (c :: seg) :: rest := rfl
    have e2 : splitSlash (c :: cs) =
        match splitSlash cs with
        | [] => [[c]]
        | seg :: rest => if c = '/' then [] :: seg :: rest else (c :: seg) :: rest := rfl
    rw [e1, e2, ih]
    cases hx : splitSlash cs with
    | nil => exact absurd hx (splitSlash_ne_nil cs)
    | cons seg rest => by_cases hc : c = '/' <;> simp [hc]

theorem joinSlash_append_singleton (pre : List (List Char)) (seg : List Char)
    (h : pre ≠ []) : joinSlash (pre ++ [seg]) = joinSlash pre ++ '/' :: seg := by
  induction pre with
  | nil => exact absurd rfl h
  | cons a rest ih =>
    cases rest with
    | nil => simp [joinSlash]
    | cons b rest2 =>
      have := ih (by simp)
      simp only [List.cons_append] at this
      simp [joinSlash, this]

theorem normalizeStep_regular (allowAboveRoot : Bool) (res : List (List Char))
    (nm : List Char) (hnm : nm ≠ []) (hdot : nm ≠ ['.']) (hdots : nm ≠ ['.', '.']) :
    normalizeStep allowAboveRoot res nm = nm :: res := by
  simp [normalizeStep, hnm, hdot, hdots]

theorem normalizeString_last_segment (allowAboveRoot : Bool) (x nm : List Char)
    (hnm : nm ≠ []) (hslash : '/' ∉ nm) (hdot : nm ≠ ['.']) (hdots : nm ≠ ['.', '.']) :
    ∃ P, normalizeString allowAboveRoot (x ++ '/' :: nm) = P ++ nm ∧
      (P = [] ∨ P.getLast? = some '/') := by
  simp only [normalizeString, splitSlash_append, splitSlash_no_slash nm hslash,
    List.foldl_append, List.foldl_cons, List.foldl_nil,
    normalizeStep_regular allowAboveRoot _ nm hnm hdot hdots, List.reverse_cons]
  by_cases hS : ((splitSlash x).foldl (normalizeStep allowAboveRoot) []).reverse = []
  · rw [hS]
    exact ⟨[], by simp [joinSlash], Or.inl rfl⟩
  · rw [joinSlash_append_singleton _ _ hS]
    exact ⟨joinSlash ((splitSlash x).foldl (normalizeStep allowAboveRoot) []).reverse ++ ['/'],
      by simp, Or.inr (by simp)⟩

theorem normalizeChars_last_segment (x nm : List Char)
    (hnm : nm ≠ []) (hslash : '/' ∉ nm) (hdot : nm ≠ ['.']) (hdots : nm ≠ ['.', '.']) :
    ∃ P, normalizeChars (x ++ '/' :: nm) = P ++ nm ∧ (P = [] ∨ P.getLast? = some '/') := by
  have hlast : (x ++ '/' :: nm).getLast? ≠ some '/' := by
    intro h
    have hmem : '/' ∈ nm := by
      have h2 : (x ++ '/' :: nm).getLast? = nm.getLast? := by
        rw [show x ++ '/' :: nm = (x ++ ['/']) ++ nm by simp]
        exact List.getLast?_append_of_ne_nil _ hnm
      rw [h2] at h
      exact List.mem_of_getLast?_eq_some h
    exact hslash hmem
  obtain ⟨P, hP, hPlast⟩ := normalizeString_last_segment
    (!decide ((x ++ '/' :: nm).head? = some '/')) x nm hnm hslash hdot hdots
  have hres : P ++ nm ≠ [] := by simp [hnm]
  simp only [normalizeChars, hP, hlast, hres, if_false, List.append_eq_nil, List.cons_ne_nil,
    and_false]
  by_cases habs : (x ++ '/' :: nm).head? = some '/'
  · simp only [habs, if_true]
    refine ⟨'/' :: P, by simp, ?_⟩
    rcases hPlast with rfl | h
    · exact Or.inr rfl
    · right
      cases P with
      | nil => simp at h
      | cons c cs => simpa [List.getLast?_cons_cons] using h
  · simp only [habs, if_false]
    exact ⟨P, rfl, hPlast⟩

theorem normalizeChars_regular (nm : List Char)
    (hnm : nm ≠ []) (hslash : '/' ∉ nm) (hdot : nm ≠ ['.']) (hdots : nm ≠ ['.', '.']) :
    normalizeChars nm = nm := by
  have hhead : nm.head? ≠ some '/' := fun h => hslash (List.mem_of_mem_head? h)
  have hlast : nm.getLast? ≠ some '/' := fun h => hslash (List.mem_of_getLast?_eq_some h)
  have hstr : normalizeString true nm = nm := by
    simp [normalizeString, splitSlash_no_slash nm hslash,
      normalizeStep_regular true _ nm hnm hdot hdots, joinSlash]
  simp [normalizeChars, hnm, hhead, hlast, hstr]

theorem join_last_segment (paths : List String) (name : String)
    (hnm : name.data ≠ []) (hslash : '/' ∉ name.data) (hdot : name.data ≠ ['.'])
    (hdots : name.data ≠ ['.', '.']) :
    ∃ parent : String, path.join (paths ++ [name]) = parent ++ name ∧
      (parent = "" ∨ parent.data.getLast? = some '/') := by
  have hfilter : ((paths ++ [name]).filter (fun a => a.data ≠ [])).map String.data =
      (paths.filter (fun a => a.data ≠ [])).map String.data ++ [name.data] := by
    simp [List.filter_append, List.filter, hnm]
  simp only [path.join, hfilter]
  cases hpre : (paths.filter (fun a => a.data ≠ [])).map String.data with
  | nil =>
    refine ⟨"", ?_, Or.inl rfl⟩
    simp only [List.nil_append, joinSlash, normalizeChars_regular _ hnm hslash hdot hdots]
    exact String.ext (by simp)
  | cons a rest =>
    obtain ⟨P, hP, hPlast⟩ := normalizeChars_last_segment (joinSlash (a :: rest)) name.data
      hnm hslash hdot hdots
    refine ⟨String.mk P, ?_, ?_⟩
    · simp only [List.cons_append]
      rw [← List.cons_append, joinSlash_append_singleton _ _ (List.cons_ne_nil _ _), hP]
      exact String.ext (by simp)
    · rcases hPlast with rfl | h
      · exact Or.inl rfl
      · exact Or.inr h

theorem csv_name_regular (project_name : String) (hsep : '/' ∉ project_name.data) :
    (project_name ++ ".csv").data ≠ [] ∧ '/' ∉ (project_name ++ ".csv").data ∧
      (project_name ++ ".csv").data ≠ ['.'] ∧ (project_name ++ ".csv").data ≠ ['.', '.'] := by
  have hdata : (project_name ++ ".csv").data = project_name.data ++ ['.', 'c', 's', 'v'] := by
    rw [String.data_append]
  rw [hdata]
  refine ⟨by simp, ?_, ?_, ?_⟩
  · intro h
    rcases List.mem_append.1 h with h | h
    · exact hsep h
    · revert h
      decide
  · intro h
    have := congrArg List.length h
    simp at this
  · intro h
    have := congrArg List.length h
    simp at this

/-! ## Lemmas: scripts and their calls -/

theorem Script.bind_apply {σ α β : Type} (m : Script σ α) (f : α → Script σ β) (w : World σ) :
    (m >>= f) w = match m w with
      | (.ok a, w1) => f a w1
      | (.error e, w1) => (.error e, w1) := rfl

theorem Script.bind_ok {σ α β : Type} (m : Script σ α) (f : α → Script σ β) (w w1 : World σ)
    (a : α) (h : m w = (.ok a, w1)) : (m >>= f) w = f a w1 := by
  rw [Script.bind_apply, h]

theorem Script.bind_error {σ α β : Type} (m : Script σ α) (f : α → Script σ β)
    (w w1 : World σ) (e : String) (h : m w = (.error e, w1)) :
    (m >>= f) w = (.error e, w1) := by
  rw [Script.bind_apply, h]

theorem Script.bind_assoc {σ α β γ : Type} (m : Script σ α) (f : α → Script σ β)
    (g : β → Script σ γ) : (m >>= f) >>= g = m >>= fun a => f a >>= g := by
  funext w
  simp only [Script.bind_apply]
  rcases h : m w with ⟨r, w1⟩
  cases r <;> simp [Script.bind_apply]

theorem Footprint.bind {σ α β : Type} {m : Script σ α} {f : α → Script σ β}
    {l1 l2 : List Action} (hm : Footprint m l1) (hf : ∀ a, Footprint (f a) l2) :
    Footprint (m >>= f) (l1 ++ l2) := by
  intro w
  obtain ⟨hfs, t, rest, hl, htr, hok⟩ := hm w
  rw [Script.bind_apply]
  rcases h : m w with ⟨r, w1⟩
  rw [h] at hfs htr hok
  cases r with
  | error e =>
    exact ⟨hfs, t, rest ++ l2, by simp [hl], htr, by intro a ha; simp at ha⟩
  | ok a =>
    obtain ⟨hfs2, t2, rest2, hl2, htr2, hok2⟩ := hf a w1
    have hrest : rest = [] := hok a rfl
    subst hrest
    refine ⟨hfs2.trans hfs, t ++ t2, rest2, by simp [hl, hl2], ?_, hok2⟩
    simp only at htr
    simp only [htr2, htr, List.append_assoc]

theorem Footprint.log {σ : Type} (msg : String) : Footprint (log msg : Script σ Unit) [] := by
  intro w
  exact ⟨rfl, [], [], rfl, by simp [TalentHero.log], fun _ _ => rfl⟩

theorem Footprint.pageUrl {σ : Type} (b : Browser σ) : Footprint (pageUrl b) [] := by
  intro w
  exact ⟨rfl, [], [], rfl, by simp [TalentHero.pageUrl], fun _ _ => rfl⟩

theorem Footprint.pure {σ α : Type} (a : α) : Footprint (pure a : Script σ α) [] := by
  intro w
  exact ⟨rfl, [], [], rfl, by simp [Pure.pure], fun _ _ => rfl⟩

theorem Footprint.waitForTimeout {σ : Type} (b : Browser σ) (ms : Nat) :
    Footprint (waitForTimeout b ms) [.waitForTimeout ms] := by
  intro w
  exact ⟨rfl, [.waitForTimeout ms], [], rfl, rfl, fun _ _ => rfl⟩

theorem Footprint.call {σ : Type} (b : Browser σ) (a : Action) : Footprint (call b a) [a] := by
  intro w
  simp only [TalentHero.call]
  cases b.step w.page a with
  | ok s => exact ⟨rfl, [a], [], rfl, rfl, fun _ _ => rfl⟩
  | error e => exact ⟨rfl, [a], [], rfl, rfl, fun _ _ => rfl⟩

theorem Footprint.evaluateTextContent {σ : Type} (b : Browser σ) (selector : String) :
    Footprint (evaluateTextContent b selector) [.evaluate selector] := by
  intro w
  simp only [TalentHero.evaluateTextContent]
  cases b.textContent w.page selector with
  | some s => exact ⟨rfl, [.evaluate selector], [], rfl, rfl, fun _ _ => rfl⟩
  | none => exact ⟨rfl, [.evaluate selector], [], rfl, rfl, fun _ _ => rfl⟩

theorem Footprint.login {σ : Type} (b : Browser σ) (email password : String) :
    Footprint (login b email password) (loginActions email password) :=
  Footprint.bind (Footprint.call b _) fun _ =>
  Footprint.bind (Footprint.pageUrl b) fun _ =>
  Footprint.bind (Footprint.log _) fun _ =>
  Footprint.bind (Footprint.waitForTimeout b _) fun _ =>
  Footprint.bind (Footprint.call b _) fun _ =>
  Footprint.bind (Footprint.log _) fun _ =>
  Footprint.bind (Footprint.waitForTimeout b _) fun _ =>
  Footprint.bind (Footprint.log _) fun _ =>
  Footprint.bind (Footprint.call b _) fun _ =>
  Footprint.bind (Footprint.log _) fun _ =>
  Footprint.bind (Footprint.waitForTimeout b _) fun _ =>
  Footprint.bind (Footprint.call b _) fun _ =>
  Footprint.bind (Footprint.log _) fun _ =>
  Footprint.waitForTimeout b _

theorem Footprint.goToRankTracker {σ : Type} (b : Browser σ) :
    Footprint (goToRankTracker b) [.goto "https://app.ahrefs.com/rank-tracker"] :=
  Footprint.bind (Footprint.call b _) fun _ => Footprint.log _

theorem Footprint.goToOverviewPage {σ : Type} (b : Browser σ) (rank_tracker_url : String) :
    Footprint (goToOverviewPage b rank_tracker_url) (overviewActions rank_tracker_url) :=
  Footprint.bind (Footprint.waitForTimeout b _) fun _ =>
  Footprint.bind (Footprint.call b _) fun _ =>
  Footprint.bind (Footprint.log _) fun _ =>
  Footprint.bind (Footprint.waitForTimeout b _) fun _ =>
  Footprint.bind (Footprint.evaluateTextContent b _) fun _ =>
  Footprint.bind (Footprint.log _) fun _ =>
  Footprint.bind (Footprint.waitForTimeout b _) fun _ =>
  Footprint.pure _

theorem Footprint.scrollPage {σ : Type} (b : Browser σ) :
    Footprint (scrollPage b) [.wheel 200, .waitForTimeout 2000] :=
  Footprint.bind (Footprint.call b _) fun _ => Footprint.waitForTimeout b _

theorem Footprint.clickExportButton {σ : Type} (b : Browser σ) :
    Footprint (clickExportButton b) [.click ".Export", .waitForTimeout 4000] :=
  Footprint.bind (Footprint.call b _) fun _ =>
  Footprint.bind (Footprint.log _) fun _ => Footprint.waitForTimeout b _

theorem Footprint.clickSecondExportButton {σ : Type} (b : Browser σ) :
    Footprint (clickSecondExportButton b) [.click ".btn.btn--primary", .waitForTimeout 4000] :=
  Footprint.bind (Footprint.call b _) fun _ =>
  Footprint.bind (Footprint.log _) fun _ => Footprint.waitForTimeout b _

theorem Footprint.beforeOverview {σ : Type} (b : Browser σ) (email password : String) :
    Footprint (beforeOverview b email password) (beforeOverviewActions email password) := by
  have h : Footprint (TalentHero.beforeOverview b email password)
      ([.launch] ++ ([.newPage] ++ (loginActions email password ++
        [.goto "https://app.ahrefs.com/rank-tracker"]))) :=
    Footprint.bind (Footprint.call b _) fun _ =>
    Footprint.bind (Footprint.call b _) fun _ =>
    Footprint.bind (Footprint.login b email password) fun _ =>
    Footprint.goToRankTracker b
  simpa [beforeOverviewActions] using h

theorem Footprint.afterOverview {σ : Type} (b : Browser σ) :
    Footprint (afterOverview b) afterOverviewActions :=
  Footprint.bind (Footprint.scrollPage b) fun _ =>
  Footprint.bind (Footprint.clickExportButton b) fun _ =>
  Footprint.bind (Footprint.clickSecondExportButton b) fun _ =>
  Footprint.bind (Footprint.waitForTimeout b _) fun _ =>
  Footprint.bind (Footprint.call b _) fun _ => Footprint.log _

theorem mainFlow_eq {σ : Type} (b : Browser σ) (email password rank_tracker_url : String) :
    mainFlow b email password rank_tracker_url =
      (beforeOverview b email password >>= fun _ =>
        goToOverviewPage b rank_tracker_url >>= fun project_name =>
          afterOverview b >>= fun _ => resolveAndRename project_name) := by
  simp only [mainFlow, beforeOverview, afterOverview, resolveAndRename, Script.bind_assoc]

theorem Footprint.of_ok {σ α : Type} {m : Script σ α} {acts : List Action}
    (hm : Footprint m acts) (w w2 : World σ) (a : α) (h : m w = (.ok a, w2)) :
    w2.trace = w.trace ++ acts ∧ w2.fs = w.fs := by
  obtain ⟨hfs, t, rest, hl, htr, hok⟩ := hm w
  rw [h] at hfs htr hok
  have hrest : rest = [] := hok a rfl
  subst hrest
  simp only [List.append_nil] at hl
  subst hl
  exact ⟨htr, hfs⟩

theorem Footprint.of_run {σ α : Type} {m : Script σ α} {acts : List Action}
    (hm : Footprint m acts) (w w2 : World σ) (r : Except String α) (h : m w = (r, w2)) :
    w2.fs = w.fs ∧ ∃ t, w2.trace = w.trace ++ t ∧ ∀ a ∈ t, a ∈ acts := by
  obtain ⟨hfs, t, rest, hl, htr, _⟩ := hm w
  rw [h] at hfs htr
  exact ⟨hfs, t, htr, fun a ha => hl ▸ List.mem_append_left _ ha⟩

theorem goToOverviewPage_run {σ : Type} (b : Browser σ) (rank_tracker_url : String)
    (w : World σ) (s : σ)
    (hgoto : b.step (b.tick w.page 5000) (.goto rank_tracker_url) = .ok s) :
    goToOverviewPage b rank_tracker_url w =
      match b.textContent (b.tick s 2000) ".ProjectDropdown-targetToggle" with
      | some text => (.ok text,
          { page := b.tick (b.tick s 2000) 2000
            fs := w.fs
            trace := w.trace ++ overviewActions rank_tracker_url
            console := w.console ++ ["Opened overview page", "Project name: " ++ text] })
      | none => (.error "TypeError",
          { page := b.tick s 2000
            fs := w.fs
            trace := w.trace ++ [.waitForTimeout 5000, .goto rank_tracker_url,
              .waitForTimeout 2000, .evaluate ".ProjectDropdown-targetToggle"]
            console := w.console ++ ["Opened overview page"] }) := by
  simp only [goToOverviewPage, Script.bind_apply, call, waitForTimeout, log,
    evaluateTextContent, hgoto, overviewActions]
  cases b.textContent (b.tick s 2000) ".ProjectDropdown-targetToggle" with
  | none => simp
  | some text => simp [pure]

theorem goToOverviewPage_reads_toggle {σ : Type} (b : Browser σ) (rank_tracker_url : String)
    (w w2 : World σ) (text : String)
    (h : goToOverviewPage b rank_tracker_url w = (.ok text, w2)) :
    ∃ s, b.step (b.tick w.page 5000) (.goto rank_tracker_url) = .ok s ∧
      b.textContent (b.tick s 2000) ".ProjectDropdown-targetToggle" = some text := by
  cases hgoto : b.step (b.tick w.page 5000) (.goto rank_tracker_url) with
  | error e =>
    simp [goToOverviewPage, Script.bind_apply, call, waitForTimeout, hgoto] at h
  | ok s =>
    refine ⟨s, rfl, ?_⟩
    rw [goToOverviewPage_run b rank_tracker_url w s hgoto] at h
    cases ht : b.textContent (b.tick s 2000) ".ProjectDropdown-targetToggle" with
    | none => simp [ht] at h
    | some t =>
      simp only [ht, Prod.mk.injEq, Except.ok.injEq] at h
      rw [h.1]

theorem resolveAndRename_trace {σ : Type} (project_name : String) (w : World σ) :
    (resolveAndRename project_name w).2.trace = w.trace ++ .readdirSync downloadPath ::
      (match getLatestFile w.fs with
        | .ok latestFile =>
          [.rename (downloadPath ++ "/" ++ jsString latestFile) (project_name ++ ".csv")]
        | .error _ => []) := by
  simp only [resolveAndRename, Script.bind_apply, readFs, rename, log]
  cases getLatestFile w.fs with
  | error e => simp
  | ok latestFile =>
    simp only
    cases w.fs.file (downloadPath ++ "/" ++ jsString latestFile) with
    | none => simp
    | some i =>
      simp only
      cases w.fs.refuses (downloadPath ++ "/" ++ jsString latestFile)
          (project_name ++ ".csv") with
      | some e => simp
      | none =>
        simp only
        by_cases hlink : w.fs.file (project_name ++ ".csv") = some i <;> simp [hlink]

theorem not_later_before (email password : String) :
    ∀ a ∈ beforeOverviewActions email password, isLaterAction a = false := by
  intro a ha
  simp only [beforeOverviewActions, loginActions, List.cons_append, List.nil_append,
    List.mem_cons, List.mem_singleton, List.not_mem_nil, or_false] at ha
  rcases ha with rfl | rfl | rfl | rfl | rfl | rfl | rfl | rfl | rfl | rfl | rfl <;> rfl

theorem not_later_overview (rank_tracker_url : String) :
    ∀ a ∈ overviewActions rank_tracker_url, isLaterAction a = false := by
  intro a ha
  simp only [overviewActions, List.mem_cons, List.mem_singleton, List.not_mem_nil,
    or_false] at ha
  rcases ha with rfl | rfl | rfl | rfl | rfl <;> rfl

theorem Script.bind_ok_inv {σ α β : Type} (m : Script σ α) (f : α → Script σ β)
    (w w2 : World σ) (b : β) (h : (m >>= f) w = (.ok b, w2)) :
    ∃ a w1, m w = (.ok a, w1) ∧ f a w1 = (.ok b, w2) := by
  rw [Script.bind_apply] at h
  rcases hm : m w with ⟨r, w1⟩
  rw [hm] at h
  cases r with
  | error e => simp at h
  | ok a => exact ⟨a, w1, rfl, h⟩

theorem rename_ok {σ : Type} (src dst : String) (w w2 : World σ)
    (h : rename src dst w = (.ok (), w2)) :
    ∃ i, w.fs.file src = some i ∧ w2.trace = w.trace ++ [.rename src dst] ∧
      w2.fs.entry = w.fs.entry ∧
      ((w.fs.file dst = some i ∧ w2.fs.content = w.fs.content) ∨
        (w.fs.file dst ≠ some i ∧ w2.fs.content = fun q =>
          if q = w.fs.entry dst then some i
          else if q = w.fs.entry src then none
          else w.fs.content q)) := by
  simp only [rename] at h
  cases hf : w.fs.file src with
  | none => simp [hf] at h
  | some i =>
    simp only [hf] at h
    cases hr : w.fs.refuses src dst with
    | some e => simp [hr] at h
    | none =>
      simp only [hr] at h
      by_cases hlink : w.fs.file dst = some i
      · simp only [hlink, if_true, Prod.mk.injEq, true_and] at h
        subst h
        exact ⟨i, rfl, rfl, rfl, Or.inl ⟨hlink, rfl⟩⟩
      · simp only [hlink, if_false, Prod.mk.injEq, true_and] at h
        subst h
        exact ⟨i, rfl, rfl, rfl, Or.inr ⟨hlink, rfl⟩⟩

theorem log_ok {σ : Type} (msg : String) (w w2 : World σ) (u : Unit)
    (h : (log msg : Script σ Unit) w = (.ok u, w2)) : w2.fs = w.fs ∧ w2.trace = w.trace := by
  simp only [log, Prod.mk.injEq] at h
  rw [← h.2]
  exact ⟨rfl, rfl⟩

/-- A rename to a path below a directory that does not exist fails, and nothing is
renamed. -/
theorem rename_missing_directory :
    (rename "/Users/mike/Downloads/report123.csv" "/Users/mike/Archive/My Project.csv"
      (startWorld (missingDirFs "/Users/mike/Downloads/report123.csv"))).1 = .error "ENOENT" ∧
    (rename "/Users/mike/Downloads/report123.csv" "/Users/mike/Archive/My Project.csv"
      (startWorld (missingDirFs "/Users/mike/Downloads/report123.csv"))).2.fs.file
        "/Users/mike/Downloads/report123.csv" = some 7 :=
  ⟨rfl, rfl⟩

/-! ## Claims on the download resolver -/

/-- C1, a defect of the code: `first.csv` and `second.csv` have distinct modification
times, 1704067200005.1 ms and 1704067200005.4 ms, that fall in the same millisecond;
`getTime()` is 1704067200005 for both, the comparator sees a tie and `getLatestFile`
returns `first.csv`, the older file, where the claim (and the comments of lines 75 and
81) name the most recent one, `second.csv`. Likewise a modification time beyond the range
of `Date` has `getTime()` `NaN`, which ties with everything: for `a.csv` (1 ms),
`future.csv` (1e16 ms) and `c.csv` (9 ms) the result is `a.csv`, the oldest. -/
theorem getLatestFile_same_millisecond :
    (1704067200005100000 : Int) < 1704067200005400000 ∧
    getTime 1704067200005100000 = some 1704067200005 ∧
    getTime 1704067200005400000 = some 1704067200005 ∧
    getLatestFile (listingFsNs [("first.csv", 1704067200005100000),
      ("second.csv", 1704067200005400000)]) = .ok (some "first.csv") ∧
    getTime (10000000000000000 * 1000000) = none ∧
    getLatestFile (listingFs [("a.csv", 1), ("future.csv", 10000000000000000),
      ("c.csv", 9)]) = .ok (some "a.csv") :=
  ⟨by decide, by decide, by decide, rfl, by decide, rfl⟩

/-- C2: whatever the listing and the modification times, ties included, a name that
`getLatestFile` returns starts neither with `.` nor with `_`. -/
theorem getLatestFile_never_hidden (fs : FileSystem) (n : String)
    (h : getLatestFile fs = .ok (some n)) :
    startsWith n "." = false ∧ startsWith n "_" = false := by
  cases hls : fs.readdirSync downloadPath with
  | error e => simp [getLatestFile, hls, bind, Except.bind] at h
  | ok files =>
    exact (visible_iff n).1 (List.mem_filter.1 (getLatestFile_filter_mem fs files n hls h)).2

/-- C2, on a listing whose hidden and underscore entries are the newest, one of them
tied with the result. -/
theorem getLatestFile_never_hidden_witness :
    getLatestFile (listingFs [(".DS_Store", 9), ("a.csv", 5), ("_temp.csv", 5)])
      = .ok (some "a.csv") ∧
    startsWith "a.csv" "." = false ∧ startsWith "a.csv" "_" = false :=
  ⟨rfl, getLatestFile_never_hidden
    (listingFs [(".DS_Store", 9), ("a.csv", 5), ("_temp.csv", 5)]) "a.csv" rfl⟩

/-- C3: `getLatestFile` returns `undefined` exactly when no listed name is left after
the names starting with `.` or `_` are excluded; for an empty directory and for a
directory with only such names it returns `undefined` and does not throw, even where
reading a modification time would throw. -/
theorem getLatestFile_undefined_iff (fs : FileSystem) (files : List String)
    (hls : fs.readdirSync downloadPath = .ok files) :
    (getLatestFile fs = .ok none ↔
      files.filter (fun f => !startsWith f "." && !startsWith f "_") = []) ∧
    (files = [] → getLatestFile fs = .ok none) ∧
    ((∀ f ∈ files, startsWith f "." = true ∨ startsWith f "_" = true) →
      getLatestFile fs = .ok none) := by
  have hiff := getLatestFile_none_iff fs files hls
  refine ⟨hiff, ?_, ?_⟩
  · intro h
    exact hiff.2 (by simp [h])
  · intro h
    apply hiff.2
    apply List.filter_eq_nil_iff.2
    intro f hf
    rcases h f hf with h1 | h1 <;> simp [visible, h1]

/-- C3, on a directory that holds only a hidden and an underscore entry and in which
every `statSync` would throw: the result is `undefined`, without an error. -/
theorem getLatestFile_undefined_iff_witness :
    getLatestFile unreadableFs = .ok none :=
  (getLatestFile_undefined_iff unreadableFs [".DS_Store", "_temp.csv"] rfl).2.2 (by decide)

/-- C10, a defect of the code (the one of C1): the modification times of `first.csv`
and `second.csv`, 1704067200005.1 ms and 1704067200005.4 ms, are distinct, and the two
orders of the listing give different results, `first.csv` and `second.csv`, where the
claim has the same result for every permutation; and in the listing `first.csv`
(1704067200005.1 ms), `second.csv`, `third.csv` (both 1704067200005.4 ms) the entries
that share the greatest modification time are `second.csv` and `third.csv`, and the
result is `first.csv`, none of them. -/
theorem getLatestFile_order_dependent :
    [("first.csv", (1704067200005100000 : Int)), ("second.csv", 1704067200005400000)].Perm
      [("second.csv", 1704067200005400000), ("first.csv", 1704067200005100000)] ∧
    (1704067200005100000 : Int) ≠ 1704067200005400000 ∧
    getLatestFile (listingFsNs [("first.csv", 1704067200005100000),
      ("second.csv", 1704067200005400000)]) = .ok (some "first.csv") ∧
    getLatestFile (listingFsNs [("second.csv", 1704067200005400000),
      ("first.csv", 1704067200005100000)]) = .ok (some "second.csv") ∧
    getLatestFile (listingFsNs [("first.csv", 1704067200005100000),
      ("second.csv", 1704067200005400000), ("third.csv", 1704067200005400000)])
      = .ok (some "first.csv") :=
  ⟨List.Perm.swap _ _ _, by decide, rfl, rfl, rfl⟩

/-! ## Claims on the session driver and the main flow -/

/-- C9: when the four calls on the page succeed, `login` returns after exactly the calls
goto the login page, wait, type the email, wait, type the password, wait, press Enter,
wait, whatever the page answers; the first three waits last 2000 ms and the last one
5000 ms, which is longer. -/
theorem login_sequence {σ : Type} (b : Browser σ) (email password : String) (w : World σ)
    (s1 s2 s3 s4 : σ)
    (h1 : b.step w.page (.goto "https://app.ahrefs.com/user/login") = .ok s1)
    (h2 : b.step (b.tick s1 2000) (.type "input[name='email']" email) = .ok s2)
    (h3 : b.step (b.tick s2 2000) (.type "input[name='password']" password) = .ok s3)
    (h4 : b.step (b.tick s3 2000) (.press "Enter") = .ok s4) :
    ∃ short long : Nat, short = 2000 ∧ long = 5000 ∧ short < long ∧
      login b email password w = (.ok (),
        { page := b.tick s4 long
          fs := w.fs
          trace := w.trace ++
            [.goto "https://app.ahrefs.com/user/login", .waitForTimeout short,
             .type "input[name='email']" email, .waitForTimeout short,
             .type "input[name='password']" password, .waitForTimeout short,
             .press "Enter", .waitForTimeout long]
          console := w.console ++
            [b.url s1, "Inputted email", "waited 2 seconds", "Inputted password",
             "Pressed enter button to log in"] }) := by
  refine ⟨2000, 5000, rfl, rfl, by decide, ?_⟩
  simp only [login, Script.bind_apply, call, waitForTimeout, log, pageUrl, h1, h2, h3, h4,
    List.append_assoc, List.cons_append, List.nil_append]

/-- C9, on a browser that accepts every call. -/
theorem login_sequence_witness :
    ∃ short long : Nat, short = 2000 ∧ long = 5000 ∧ short < long ∧
      login exampleBrowser "mike@example.com" "secret" (startWorld (listingFs [])) = (.ok (),
        { page := ()
          fs := listingFs []
          trace :=
            [.goto "https://app.ahrefs.com/user/login", .waitForTimeout short,
             .type "input[name='email']" "mike@example.com", .waitForTimeout short,
             .type "input[name='password']" "secret", .waitForTimeout short,
             .press "Enter", .waitForTimeout long]
          console :=
            ["https://app.ahrefs.com/user/login", "Inputted email", "waited 2 seconds",
             "Inputted password", "Pressed enter button to log in"] }) :=
  login_sequence exampleBrowser "mike@example.com" "secret" (startWorld (listingFs []))
    () () () () rfl rfl rfl rfl

/-- C7: once the navigation to the target address has succeeded, `goToOverviewPage`
throws when the page has no element matching `.ProjectDropdown-targetToggle` and
otherwise returns the text content of that element; and when `goToOverviewPage` throws,
the main flow ends with that error, leaves the file system as it was, and has made no
scroll, no click, no closing of the browser, no listing and no rename. -/
theorem goToOverviewPage_missing_toggle {σ : Type} (b : Browser σ)
    (rank_tracker_url : String) :
    (∀ (w : World σ) (s : σ),
      b.step (b.tick w.page 5000) (.goto rank_tracker_url) = .ok s →
      (b.textContent (b.tick s 2000) ".ProjectDropdown-targetToggle" = none →
        ∃ e w2, goToOverviewPage b rank_tracker_url w = (.error e, w2)) ∧
      (∀ text, b.textContent (b.tick s 2000) ".ProjectDropdown-targetToggle" = some text →
        ∃ w2, goToOverviewPage b rank_tracker_url w = (.ok text, w2))) ∧
    (∀ (email password : String) (w w1 w2 : World σ) (e : String),
      beforeOverview b email password w = (.ok (), w1) →
      goToOverviewPage b rank_tracker_url w1 = (.error e, w2) →
      mainFlow b email password rank_tracker_url w = (.error e, w2) ∧ w2.fs = w.fs ∧
        ∃ t, w2.trace = w.trace ++ t ∧ ∀ a ∈ t, isLaterAction a = false) := by
  constructor
  · intro w s hgoto
    have hrun := goToOverviewPage_run b rank_tracker_url w s hgoto
    constructor
    · intro hnone
      rw [hnone] at hrun
      exact ⟨_, _, hrun⟩
    · intro text hsome
      rw [hsome] at hrun
      exact ⟨_, hrun⟩
  · intro email password w w1 w2 e hpre hthrow
    refine ⟨?_, ?_, ?_⟩
    · rw [mainFlow_eq, Script.bind_ok _ _ w w1 () hpre, Script.bind_error _ _ w1 w2 e hthrow]
    · have h1 := (Footprint.beforeOverview b email password).of_ok w w1 () hpre
      have h2 := (Footprint.goToOverviewPage b rank_tracker_url).of_run w1 w2 _ hthrow
      rw [h2.1, h1.2]
    · have h1 := (Footprint.beforeOverview b email password).of_ok w w1 () hpre
      obtain ⟨_, t, ht, hmem⟩ :=
        (Footprint.goToOverviewPage b rank_tracker_url).of_run w1 w2 _ hthrow
      refine ⟨beforeOverviewActions email password ++ t, ?_, ?_⟩
      · rw [ht, h1.1, List.append_assoc]
      · intro a ha
        rcases List.mem_append.1 ha with ha | ha
        · exact not_later_before email password a ha
        · exact not_later_overview rank_tracker_url a (hmem a ha)

/-- C7, on a page without any element: `goToOverviewPage` throws, and the main flow ends
with the `TypeError` before any scroll, click, close, listing or rename. -/
theorem goToOverviewPage_missing_toggle_witness :
    (∃ e w2, goToOverviewPage emptyPageBrowser "https://app.ahrefs.com/rank-tracker/1"
      (startWorld (listingFs [("report123.csv", 1)])) = (.error e, w2)) ∧
    (mainFlow emptyPageBrowser "mike@example.com" "secret"
        "https://app.ahrefs.com/rank-tracker/1"
        (startWorld (listingFs [("report123.csv", 1)])) =
      (.error "TypeError",
        (goToOverviewPage emptyPageBrowser "https://app.ahrefs.com/rank-tracker/1"
          (beforeOverview emptyPageBrowser "mike@example.com" "secret"
            (startWorld (listingFs [("report123.csv", 1)]))).2).2) ∧
      (goToOverviewPage emptyPageBrowser "https://app.ahrefs.com/rank-tracker/1"
          (beforeOverview emptyPageBrowser "mike@example.com" "secret"
            (startWorld (listingFs [("report123.csv", 1)]))).2).2.fs =
        (startWorld (listingFs [("report123.csv", 1)])).fs ∧
      ∃ t, (goToOverviewPage emptyPageBrowser "https://app.ahrefs.com/rank-tracker/1"
          (beforeOverview emptyPageBrowser "mike@example.com" "secret"
            (startWorld (listingFs [("report123.csv", 1)]))).2).2.trace =
        (startWorld (listingFs [("report123.csv", 1)])).trace ++ t ∧
        ∀ a ∈ t, isLaterAction a = false) :=
  ⟨((goToOverviewPage_missing_toggle emptyPageBrowser
      "https://app.ahrefs.com/rank-tracker/1").1
      (startWorld (listingFs [("report123.csv", 1)])) () rfl).1 rfl,
   (goToOverviewPage_missing_toggle emptyPageBrowser
      "https://app.ahrefs.com/rank-tracker/1").2 "mike@example.com" "secret"
      (startWorld (listingFs [("report123.csv", 1)])) _ _ "TypeError" rfl rfl⟩

/-- C8: in a run in which every call on the browser succeeds (the three parts of the
flow up to the closing of the browser return), the calls are, in order, those of
`login`, the rank-tracker page, the target address with the reading of the project
name, the scroll, the click on `.Export`, the click on `.btn.btn--primary` and the
closing of the browser; only then the download directory is listed, and when the
resolver returns, the file it names is renamed to the project name that
`goToOverviewPage` returned, which is the text of the toggle; no call of
`checkDownloadStatus` is made. -/
theorem mainFlow_order {σ : Type} (b : Browser σ) (email password rank_tracker_url : String)
    (w w1 w2 w3 : World σ) (project_name : String)
    (h1 : beforeOverview b email password w = (.ok (), w1))
    (h2 : goToOverviewPage b rank_tracker_url w1 = (.ok project_name, w2))
    (h3 : afterOverview b w2 = (.ok (), w3)) :
    w3.trace = w.trace ++
      [.launch, .newPage,
       .goto "https://app.ahrefs.com/user/login", .waitForTimeout 2000,
       .type "input[name='email']" email, .waitForTimeout 2000,
       .type "input[name='password']" password, .waitForTimeout 2000,
       .press "Enter", .waitForTimeout 5000,
       .goto "https://app.ahrefs.com/rank-tracker",
       .waitForTimeout 5000, .goto rank_tracker_url, .waitForTimeout 2000,
       .evaluate ".ProjectDropdown-targetToggle", .waitForTimeout 2000,
       .wheel 200, .waitForTimeout 2000,
       .click ".Export", .waitForTimeout 4000,
       .click ".btn.btn--primary", .waitForTimeout 4000,
       .waitForTimeout 2000, .close] ∧
    (∃ s, b.textContent s ".ProjectDropdown-targetToggle" = some project_name) ∧
    (mainFlow b email password rank_tracker_url w).2.trace =
      w3.trace ++ .readdirSync downloadPath ::
        (match getLatestFile w.fs with
          | .ok latestFile =>
            [.rename (downloadPath ++ "/" ++ jsString latestFile) (project_name ++ ".csv")]
          | .error _ => []) ∧
    ∀ selector timeout,
      Action.waitForSelector selector timeout ∉
        ((mainFlow b email password rank_tracker_url w).2.trace).drop w.trace.length := by
  have f1 := (Footprint.beforeOverview b email password).of_ok w w1 () h1
  have f2 := (Footprint.goToOverviewPage b rank_tracker_url).of_ok w1 w2 project_name h2
  have f3 := (Footprint.afterOverview b).of_ok w2 w3 () h3
  have htrace : w3.trace = w.trace ++
      [.launch, .newPage,
       .goto "https://app.ahrefs.com/user/login", .waitForTimeout 2000,
       .type "input[name='email']" email, .waitForTimeout 2000,
       .type "input[name='password']" password, .waitForTimeout 2000,
       .press "Enter", .waitForTimeout 5000,
       .goto "https://app.ahrefs.com/rank-tracker",
       .waitForTimeout 5000, .goto rank_tracker_url, .waitForTimeout 2000,
       .evaluate ".ProjectDropdown-targetToggle", .waitForTimeout 2000,
       .wheel 200, .waitForTimeout 2000,
       .click ".Export", .waitForTimeout 4000,
       .click ".btn.btn--primary", .waitForTimeout 4000,
       .waitForTimeout 2000, .close] := by
    rw [f3.1, f2.1, f1.1]
    simp [beforeOverviewActions, loginActions, overviewActions, afterOverviewActions]
  have hfs : w3.fs = w.fs := by rw [f3.2, f2.2, f1.2]
  have hmain : (mainFlow b email password rank_tracker_url w).2.trace =
      w3.trace ++ .readdirSync downloadPath ::
        (match getLatestFile w.fs with
          | .ok latestFile =>
            [.rename (downloadPath ++ "/" ++ jsString latestFile) (project_name ++ ".csv")]
          | .error _ => []) := by
    rw [mainFlow_eq, Script.bind_ok _ _ w w1 () h1, Script.bind_ok _ _ w1 w2 project_name h2,
      Script.bind_ok _ _ w2 w3 () h3, resolveAndRename_trace, hfs]
  refine ⟨htrace, ?_, ?_, ?_⟩
  · obtain ⟨s, _, hs⟩ := goToOverviewPage_reads_toggle b rank_tracker_url w1 w2 project_name h2
    exact ⟨_, hs⟩
  · exact hmain
  · intro selector timeout
    rw [hmain, htrace, List.append_assoc, List.drop_left]
    cases getLatestFile w.fs <;> simp

/-- C8, on a browser that accepts every call and a download directory that holds
`report123.csv`: the whole sequence of calls of the run. -/
theorem mainFlow_order_witness :
    (mainFlow exampleBrowser "mike@example.com" "secret"
        "https://app.ahrefs.com/rank-tracker/1"
        (startWorld (listingFs [("report123.csv", 1)]))).2.trace =
      [.launch, .newPage,
       .goto "https://app.ahrefs.com/user/login", .waitForTimeout 2000,
       .type "input[name='email']" "mike@example.com", .waitForTimeout 2000,
       .type "input[name='password']" "secret", .waitForTimeout 2000,
       .press "Enter", .waitForTimeout 5000,
       .goto "https://app.ahrefs.com/rank-tracker",
       .waitForTimeout 5000, .goto "https://app.ahrefs.com/rank-tracker/1",
       .waitForTimeout 2000,
       .evaluate ".ProjectDropdown-targetToggle", .waitForTimeout 2000,
       .wheel 200, .waitForTimeout 2000,
       .click ".Export", .waitForTimeout 4000,
       .click ".btn.btn--primary", .waitForTimeout 4000,
       .waitForTimeout 2000, .close,
       .readdirSync "/Users/mike/Downloads",
       .rename "/Users/mike/Downloads/report123.csv" "My Project.csv"] :=
  (mainFlow_order exampleBrowser "mike@example.com" "secret"
    "https://app.ahrefs.com/rank-tracker/1"
    (startWorld (listingFs [("report123.csv", 1)])) _ _ _ "My Project" rfl rfl rfl).2.2.1.trans
    rfl

/-- C5, as stated, fails: in this run, which reaches the resolution of the file, the
only rename is the one of the top level, and neither call of the two-step rename of
`renameAndMoveLatestFile` is made. -/
theorem mainFlow_two_step_rename_counterexample :
    Action.readdirSync downloadPath ∈
      (mainFlow exampleBrowser "mike@example.com" "secret"
        "https://app.ahrefs.com/rank-tracker/1"
        (startWorld (listingFs [("report123.csv", 1)]))).2.trace ∧
    (mainFlow exampleBrowser "mike@example.com" "secret"
        "https://app.ahrefs.com/rank-tracker/1"
        (startWorld (listingFs [("report123.csv", 1)]))).2.trace.filter isRename =
      [.rename "/Users/mike/Downloads/report123.csv" "My Project.csv"] ∧
    ∀ a ∈ twoStepRenameActions "My Project" "/Users/mike/Downloads/report123.csv"
        downloadPath,
      a ∉ (mainFlow exampleBrowser "mike@example.com" "secret"
        "https://app.ahrefs.com/rank-tracker/1"
        (startWorld (listingFs [("report123.csv", 1)]))).2.trace := by
  decide

/-- C5, amended: in a run that reaches the resolution of the file, the flow makes a
single rename, the one of the top level, from the resolved file in the download
directory to `<project name>.csv` relative to the working directory (and none when the
resolver throws); `renameAndMoveLatestFile` is not called. -/
theorem mainFlow_single_rename {σ : Type} (b : Browser σ)
    (email password rank_tracker_url : String) (w w1 w2 w3 : World σ) (project_name : String)
    (h1 : beforeOverview b email password w = (.ok (), w1))
    (h2 : goToOverviewPage b rank_tracker_url w1 = (.ok project_name, w2))
    (h3 : afterOverview b w2 = (.ok (), w3)) :
    Action.readdirSync downloadPath ∈
      ((mainFlow b email password rank_tracker_url w).2.trace).drop w.trace.length ∧
    (((mainFlow b email password rank_tracker_url w).2.trace).drop w.trace.length).filter
        isRename =
      match getLatestFile w.fs with
      | .ok latestFile =>
        [.rename (downloadPath ++ "/" ++ jsString latestFile) (project_name ++ ".csv")]
      | .error _ => [] := by
  have f1 := (Footprint.beforeOverview b email password).of_ok w w1 () h1
  have f2 := (Footprint.goToOverviewPage b rank_tracker_url).of_ok w1 w2 project_name h2
  have f3 := (Footprint.afterOverview b).of_ok w2 w3 () h3
  have hfs : w3.fs = w.fs := by rw [f3.2, f2.2, f1.2]
  have hmain : (mainFlow b email password rank_tracker_url w).2.trace =
      w.trace ++ (beforeOverviewActions email password ++ (overviewActions rank_tracker_url ++
        (afterOverviewActions ++ .readdirSync downloadPath ::
        (match getLatestFile w.fs with
          | .ok latestFile =>
            [.rename (downloadPath ++ "/" ++ jsString latestFile) (project_name ++ ".csv")]
          | .error _ => [])))) := by
    rw [mainFlow_eq, Script.bind_ok _ _ w w1 () h1, Script.bind_ok _ _ w1 w2 project_name h2,
      Script.bind_ok _ _ w2 w3 () h3, resolveAndRename_trace, hfs, f3.1, f2.1, f1.1]
    simp only [List.append_assoc]
  rw [hmain, List.drop_left]
  constructor
  · simp
  · cases getLatestFile w.fs <;>
      simp [beforeOverviewActions, loginActions, overviewActions, afterOverviewActions,
        isRename, List.filter]

/-- C5 amended, on a browser that accepts every call and a download directory that
holds `report123.csv`. -/
theorem mainFlow_single_rename_witness :
    (((mainFlow exampleBrowser "mike@example.com" "secret"
        "https://app.ahrefs.com/rank-tracker/1"
        (startWorld (listingFs [("report123.csv", 1)]))).2.trace).drop 0).filter isRename =
      [.rename "/Users/mike/Downloads/report123.csv" "My Project.csv"] :=
  (mainFlow_single_rename exampleBrowser "mike@example.com" "secret"
    "https://app.ahrefs.com/rank-tracker/1"
    (startWorld (listingFs [("report123.csv", 1)])) _ _ _ "My Project" rfl rfl rfl).2.trans rfl

/-- C6: when the run reaches the resolution of the file, no listed name is left after
the filter, and at the time of the rename the download directory holds no entry that
was not listed, the rename of the main flow is called with the source
`/Users/mike/Downloads/undefined`, which names no file; the rename fails, its callback
throws, and the file system is left as it was. -/
theorem mainFlow_empty_directory {σ : Type} (b : Browser σ)
    (email password rank_tracker_url : String) (w w1 w2 w3 : World σ) (project_name : String)
    (files : List String)
    (h1 : beforeOverview b email password w = (.ok (), w1))
    (h2 : goToOverviewPage b rank_tracker_url w1 = (.ok project_name, w2))
    (h3 : afterOverview b w2 = (.ok (), w3))
    (hls : w.fs.readdirSync downloadPath = .ok files)
    (hempty : files.filter (fun f => !startsWith f "." && !startsWith f "_") = [])
    (hsame : ∀ name, name ∉ files → w.fs.file (downloadPath ++ "/" ++ name) = none) :
    mainFlow b email password rank_tracker_url w =
      (.error "ENOENT",
        { w3 with
          trace := w3.trace ++ [.readdirSync downloadPath,
            .rename "/Users/mike/Downloads/undefined" (project_name ++ ".csv")] }) ∧
    w3.fs = w.fs ∧ w.fs.file "/Users/mike/Downloads/undefined" = none := by
  have f1 := (Footprint.beforeOverview b email password).of_ok w w1 () h1
  have f2 := (Footprint.goToOverviewPage b rank_tracker_url).of_ok w1 w2 project_name h2
  have f3 := (Footprint.afterOverview b).of_ok w2 w3 () h3
  have hfs : w3.fs = w.fs := by rw [f3.2, f2.2, f1.2]
  have hnone : getLatestFile w.fs = .ok none := (getLatestFile_none_iff w.fs files hls).2 hempty
  have hnot : "undefined" ∉ files := by
    intro hmem
    have : "undefined" ∈ files.filter (fun f => !startsWith f "." && !startsWith f "_") :=
      List.mem_filter.2 ⟨hmem, by decide⟩
    rw [hempty] at this
    simp at this
  have hfile : w.fs.file "/Users/mike/Downloads/undefined" = none := hsame "undefined" hnot
  refine ⟨?_, hfs, hfile⟩
  rw [mainFlow_eq, Script.bind_ok _ _ w w1 () h1, Script.bind_ok _ _ w1 w2 project_name h2,
    Script.bind_ok _ _ w2 w3 () h3]
  have hpath : downloadPath ++ "/" ++ jsString none = "/Users/mike/Downloads/undefined" := by
    decide
  simp only [resolveAndRename, Script.bind_apply, readFs, rename, hfs, hnone, hpath, hfile,
    List.append_assoc, List.cons_append, List.nil_append]

/-- C6, on a download directory that holds only `.DS_Store`: the flow ends with the
error of the rename of `/Users/mike/Downloads/undefined`, and `.DS_Store` is where it
was. -/
theorem mainFlow_empty_directory_witness :
    (mainFlow exampleBrowser "mike@example.com" "secret"
        "https://app.ahrefs.com/rank-tracker/1" (startWorld hiddenOnlyFs)).1 =
      .error "ENOENT" ∧
    (mainFlow exampleBrowser "mike@example.com" "secret"
        "https://app.ahrefs.com/rank-tracker/1" (startWorld hiddenOnlyFs)).2.trace.drop 24 =
      [.readdirSync "/Users/mike/Downloads",
       .rename "/Users/mike/Downloads/undefined" "My Project.csv"] ∧
    (mainFlow exampleBrowser "mike@example.com" "secret"
        "https://app.ahrefs.com/rank-tracker/1" (startWorld hiddenOnlyFs)).2.fs.file
      "/Users/mike/Downloads/.DS_Store" = some 1 := by
  have h := (mainFlow_empty_directory exampleBrowser "mike@example.com" "secret"
    "https://app.ahrefs.com/rank-tracker/1" (startWorld hiddenOnlyFs) _ _ _ "My Project"
    [".DS_Store"] rfl rfl rfl rfl (by decide)
    (by
      intro name hname
      have hne : downloadPath ++ "/" ++ name ≠ "/Users/mike/Downloads/.DS_Store" := by
        intro h
        apply hname
        have h2 : downloadPath ++ "/" ++ name = downloadPath ++ "/" ++ ".DS_Store" := h
        rw [string_append_cancel _ _ _ h2]
        exact List.mem_singleton.2 rfl
      show (if downloadPath ++ "/" ++ name = "/Users/mike/Downloads/.DS_Store"
        then some 1 else none) = none
      rw [if_neg hne])).1
  rw [h]
  exact ⟨rfl, rfl, rfl⟩

/-! ## Claims on the two-step rename -/

/-- C4, as stated, fails: with the source already at the final path, both renames
succeed and the file is at the source path in the end; and with the root as directory,
the path `dir/p.csv` is the final path, where the file is in the end. The same holds
for a source that is another spelling of the final path, and for a source file that has
a second name (a hard link) at `dir/p.csv`: the first rename then changes nothing and
the file is still at the source in the end. -/
theorem renameAndMoveLatestFile_leaves_counterexample :
    '/' ∉ "My Project".data ∧
    (renameAndMoveLatestFile "My Project" "/Users/mike/My Project.csv" "/Users/mike/Downloads"
      (startWorld (singleFileFs "/Users/mike/My Project.csv"))).1 = .ok () ∧
    (renameAndMoveLatestFile "My Project" "/Users/mike/My Project.csv" "/Users/mike/Downloads"
      (startWorld (singleFileFs "/Users/mike/My Project.csv"))).2.fs.file
        "/Users/mike/My Project.csv" = some 7 ∧
    (renameAndMoveLatestFile "My Project" "/report123.csv" "/"
      (startWorld (singleFileFs "/report123.csv"))).1 = .ok () ∧
    (renameAndMoveLatestFile "My Project" "/report123.csv" "/"
      (startWorld (singleFileFs "/report123.csv"))).2.fs.file
        (path.join ["/", "My Project" ++ ".csv"]) = some 7 ∧
    (renameAndMoveLatestFile "My Project" "/Users/mike/Downloads/../My Project.csv"
      "/Users/mike/Downloads"
      (startWorld (singleFileFs "/Users/mike/Downloads/../My Project.csv"))).1 = .ok () ∧
    (renameAndMoveLatestFile "My Project" "/Users/mike/Downloads/../My Project.csv"
      "/Users/mike/Downloads"
      (startWorld (singleFileFs "/Users/mike/Downloads/../My Project.csv"))).2.fs.file
        "/Users/mike/Downloads/../My Project.csv" = some 7 ∧
    (renameAndMoveLatestFile "My Project" "/Users/mike/Downloads/report123.csv"
      "/Users/mike/Downloads"
      (startWorld (linkedFileFs "/Users/mike/Downloads/report123.csv"
        "/Users/mike/Downloads/My Project.csv"))).1 = .ok () ∧
    (renameAndMoveLatestFile "My Project" "/Users/mike/Downloads/report123.csv"
      "/Users/mike/Downloads"
      (startWorld (linkedFileFs "/Users/mike/Downloads/report123.csv"
        "/Users/mike/Downloads/My Project.csv"))).2.fs.file
        "/Users/mike/Downloads/report123.csv" = some 7 :=
  ⟨by decide, rfl, rfl, rfl, rfl, rfl, rfl, rfl, rfl⟩

/-- C4, amended: for a project name without a path separator and a source file that has
no other name (no hard link), when both renames succeed `renameAndMoveLatestFile` first
renames the source to `<project name>.csv` in the directory and then that path to
`<project name>.csv` in the parent of the directory (`path.join(newDir, '..',
newName)`); both paths have `<project name>.csv` as their last segment; the file that
the source named is at the final path in the end; nothing is left at the source unless
the source denotes the same directory entry as the final path, and nothing is left at
the intermediate path unless it denotes the same directory entry as the final path. -/
theorem renameAndMoveLatestFile_moves {σ : Type} (project_name latestFilePath newDir : String)
    (w w2 : World σ) (hsep : '/' ∉ project_name.data)
    (hone : ∀ q, w.fs.file q = w.fs.file latestFilePath →
      w.fs.entry q = w.fs.entry latestFilePath)
    (h : renameAndMoveLatestFile project_name latestFilePath newDir w = (.ok (), w2)) :
    (∃ dir parent : String,
      path.join [newDir, project_name ++ ".csv"] = dir ++ (project_name ++ ".csv") ∧
      path.join [newDir, "..", project_name ++ ".csv"] = parent ++ (project_name ++ ".csv") ∧
      (dir = "" ∨ dir.data.getLast? = some '/') ∧
      (parent = "" ∨ parent.data.getLast? = some '/')) ∧
    ∃ i, w.fs.file latestFilePath = some i ∧
      w2.trace = w.trace ++
        [.rename latestFilePath (path.join [newDir, project_name ++ ".csv"]),
         .rename (path.join [newDir, project_name ++ ".csv"])
           (path.join [newDir, "..", project_name ++ ".csv"])] ∧
      w2.fs.file (path.join [newDir, "..", project_name ++ ".csv"]) = some i ∧
      (w.fs.entry latestFilePath ≠
          w.fs.entry (path.join [newDir, "..", project_name ++ ".csv"]) →
        w2.fs.file latestFilePath = none) ∧
      (w.fs.entry (path.join [newDir, project_name ++ ".csv"]) ≠
          w.fs.entry (path.join [newDir, "..", project_name ++ ".csv"]) →
        w2.fs.file (path.join [newDir, project_name ++ ".csv"]) = none) := by
  obtain ⟨hnm, hslash, hdot, hdots⟩ := csv_name_regular project_name hsep
  constructor
  · obtain ⟨dir, hdir, hdirlast⟩ :=
      join_last_segment [newDir] (project_name ++ ".csv") hnm hslash hdot hdots
    obtain ⟨parent, hparent, hparentlast⟩ :=
      join_last_segment [newDir, ".."] (project_name ++ ".csv") hnm hslash hdot hdots
    exact ⟨dir, parent, hdir, hparent, hdirlast, hparentlast⟩
  · simp only [renameAndMoveLatestFile] at h
    obtain ⟨_, w1, hr1, h⟩ := Script.bind_ok_inv _ _ w w2 () h
    obtain ⟨u1, w1b, hl1, h⟩ := Script.bind_ok_inv _ _ w1 w2 () h
    obtain ⟨_, w3, hr2, hl2⟩ := Script.bind_ok_inv _ _ w1b w2 () h
    obtain ⟨hfs1, htr1⟩ := log_ok _ w1 w1b u1 hl1
    obtain ⟨hfs2, htr2⟩ := log_ok _ w3 w2 () hl2
    obtain ⟨i, hf, ht1, he1, hc1⟩ := rename_ok _ _ w w1 hr1
    obtain ⟨j, hmid, ht3, he3, hc3⟩ := rename_ok _ _ w1b w3 hr2
    rw [hfs1] at hmid he3 hc3
    have hone2 : ∀ q, w.fs.content (w.fs.entry q) = some i →
        w.fs.entry q = w.fs.entry latestFilePath := by
      intro q hq
      apply hone q
      rw [hf]
      exact hq
    have hf0 : w.fs.content (w.fs.entry latestFilePath) = some i := hf
    simp only [FileSystem.file, hfs2, he3, he1] at hmid hc3 hc1 ⊢
    refine ⟨i, hf0, ?_, ?_, ?_, ?_⟩
    · rw [htr2, ht3, htr1, ht1, List.append_assoc]
      rfl
    · rcases hc1 with ⟨hm1, hcont1⟩ | ⟨hm1, hcont1⟩ <;>
        rcases hc3 with ⟨hn3, hcont3⟩ | ⟨hn3, hcont3⟩
      · rw [hcont1] at hmid hn3
        rw [hm1] at hmid
        rw [hcont3, hcont1, hn3, hmid]
      · rw [hcont1] at hmid
        rw [hm1] at hmid
        rw [hcont3]
        simp [hmid]
      · rw [hcont1] at hmid hn3
        simp only [if_true] at hmid
        rw [hcont3, hcont1, hn3, hmid]
      · rw [hcont1] at hmid
        simp only [if_true] at hmid
        rw [hcont3]
        simp [hmid]
    · intro hne
      rcases hc1 with ⟨hm1, hcont1⟩ | ⟨hm1, hcont1⟩ <;>
        rcases hc3 with ⟨hn3, hcont3⟩ | ⟨hn3, hcont3⟩
      · rw [hcont1] at hmid hn3
        rw [hm1] at hmid
        rw [← hmid] at hn3
        exact absurd (hone2 _ hn3).symm hne
      · have hem := hone2 _ hm1
        rw [hcont3]
        simp [hne, hem]
      · have hfm : w.fs.entry latestFilePath ≠
            w.fs.entry (path.join [newDir, project_name ++ ".csv"]) := by
          intro heq
          rw [← heq] at hm1
          exact hm1 hf0
        rw [hcont3, hcont1]
        simp [hfm]
      · have hfm : w.fs.entry latestFilePath ≠
            w.fs.entry (path.join [newDir, project_name ++ ".csv"]) := by
          intro heq
          rw [← heq] at hm1
          exact hm1 hf0
        rw [hcont3, hcont1]
        simp [hne, hfm]
    · intro hne
      rcases hc1 with ⟨hm1, hcont1⟩ | ⟨hm1, hcont1⟩ <;>
        rcases hc3 with ⟨hn3, hcont3⟩ | ⟨hn3, hcont3⟩
      · rw [hcont1] at hmid hn3
        rw [hm1] at hmid
        rw [← hmid] at hn3
        have h1 := hone2 _ hn3
        have h2 := hone2 _ hm1
        exact absurd (h2.trans h1.symm) hne
      · rw [hcont3]
        simp [hne]
      · rw [hcont1] at hmid hn3
        simp only [if_true] at hmid
        rw [← hmid] at hn3
        simp only [Ne.symm hne, if_false] at hn3
        by_cases hnf : w.fs.entry (path.join [newDir, "..", project_name ++ ".csv"]) =
            w.fs.entry latestFilePath
        · simp [hnf] at hn3
        · simp only [hnf, if_false] at hn3
          exact absurd (hone2 _ hn3) hnf
      · rw [hcont3]
        simp [hne]

/-- C4 amended, on the scenario of the specification: the project `My Project` and the
resolved file `report123.csv` of the download directory give the final artifact
`/Users/mike/My Project.csv`, and nothing is left at the two earlier paths. -/
theorem renameAndMoveLatestFile_moves_witness :
    path.join ["/Users/mike/Downloads", "..", "My Project" ++ ".csv"]
      = "/Users/mike/My Project.csv" ∧
    (renameAndMoveLatestFile "My Project" "/Users/mike/Downloads/report123.csv"
      "/Users/mike/Downloads"
      (startWorld (singleFileFs "/Users/mike/Downloads/report123.csv"))).2.fs.file
        "/Users/mike/My Project.csv" = some 7 ∧
    (renameAndMoveLatestFile "My Project" "/Users/mike/Downloads/report123.csv"
      "/Users/mike/Downloads"
      (startWorld (singleFileFs "/Users/mike/Downloads/report123.csv"))).2.fs.file
        "/Users/mike/Downloads/report123.csv" = none ∧
    (renameAndMoveLatestFile "My Project" "/Users/mike/Downloads/report123.csv"
      "/Users/mike/Downloads"
      (startWorld (singleFileFs "/Users/mike/Downloads/report123.csv"))).2.fs.file
        "/Users/mike/Downloads/My Project.csv" = none ∧
    ∃ i, (startWorld (singleFileFs "/Users/mike/Downloads/report123.csv")).fs.file
        "/Users/mike/Downloads/report123.csv" = some i ∧
      (renameAndMoveLatestFile "My Project" "/Users/mike/Downloads/report123.csv"
        "/Users/mike/Downloads"
        (startWorld (singleFileFs "/Users/mike/Downloads/report123.csv"))).2.trace =
        (startWorld (singleFileFs "/Users/mike/Downloads/report123.csv")).trace ++
        [.rename "/Users/mike/Downloads/report123.csv"
           (path.join ["/Users/mike/Downloads", "My Project" ++ ".csv"]),
         .rename (path.join ["/Users/mike/Downloads", "My Project" ++ ".csv"])
           (path.join ["/Users/mike/Downloads", "..", "My Project" ++ ".csv"])] ∧
      (renameAndMoveLatestFile "My Project" "/Users/mike/Downloads/report123.csv"
        "/Users/mike/Downloads"
        (startWorld (singleFileFs "/Users/mike/Downloads/report123.csv"))).2.fs.file
          (path.join ["/Users/mike/Downloads", "..", "My Project" ++ ".csv"]) = some i ∧
      ((startWorld (singleFileFs "/Users/mike/Downloads/report123.csv")).fs.entry
          "/Users/mike/Downloads/report123.csv" ≠
        (startWorld (singleFileFs "/Users/mike/Downloads/report123.csv")).fs.entry
          (path.join ["/Users/mike/Downloads", "..", "My Project" ++ ".csv"]) →
        (renameAndMoveLatestFile "My Project" "/Users/mike/Downloads/report123.csv"
          "/Users/mike/Downloads"
          (startWorld (singleFileFs "/Users/mike/Downloads/report123.csv"))).2.fs.file
            "/Users/mike/Downloads/report123.csv" = none) ∧
      ((startWorld (singleFileFs "/Users/mike/Downloads/report123.csv")).fs.entry
          (path.join ["/Users/mike/Downloads", "My Project" ++ ".csv"]) ≠
        (startWorld (singleFileFs "/Users/mike/Downloads/report123.csv")).fs.entry
          (path.join ["/Users/mike/Downloads", "..", "My Project" ++ ".csv"]) →
        (renameAndMoveLatestFile "My Project" "/Users/mike/Downloads/report123.csv"
          "/Users/mike/Downloads"
          (startWorld (singleFileFs "/Users/mike/Downloads/report123.csv"))).2.fs.file
            (path.join ["/Users/mike/Downloads", "My Project" ++ ".csv"]) = none) :=
  ⟨by decide, rfl, rfl, rfl,
    (renameAndMoveLatestFile_moves "My Project" "/Users/mike/Downloads/report123.csv"
      "/Users/mike/Downloads"
      (startWorld (singleFileFs "/Users/mike/Downloads/report123.csv")) _ (by decide)
      (by
        intro q hq
        show canonical q = canonical "/Users/mike/Downloads/report123.csv"
        by_cases hc : canonical q = canonical "/Users/mike/Downloads/report123.csv"
        · exact hc
        · have h7 : (startWorld (singleFileFs "/Users/mike/Downloads/report123.csv")).fs.file
              "/Users/mike/Downloads/report123.csv" = some 7 := rfl
          rw [h7] at hq
          have hq2 : (if canonical q = canonical "/Users/mike/Downloads/report123.csv"
              then some 7 else none) = some 7 := hq
          rw [if_neg hc] at hq2
          cases hq2)
      rfl).2⟩

end TalentHero
